import Mathlib

/-!
Verification of the GeoIPS plugin registry, registry builder and products
interface (plugin discovery / registry / validation subsystem).

The data model follows the Python sources:
* nested dictionaries (YAML plugin content, registry interface entries,
  product specs) are modelled by the mutual inductives `PVal` / `PObj`,
  an ordered association structure mirroring Python dict insertion order;
* the plugin registry loader (`geoips/plugin_registry.py`), the registry
  builder (`geoips/create_plugin_registry.py`) and the products interface
  (`geoips/interfaces/yaml_based/products.py`) are embedded as pure
  functions, with fallible code returning `Except`.
-/

set_option autoImplicit false

namespace GeoIPS

mutual
/-- A Python value as it appears in plugin dictionaries: a string leaf, a
numeric leaf, or a nested dictionary (`PObj`). -/
inductive PVal where
  | atom : String → PVal
  | num  : Int → PVal
  | node : PObj → PVal

/-- An ordered string-keyed dictionary of `PVal`s (Python dict with
insertion order). -/
inductive PObj where
  | nil  : PObj
  | cons : String → PVal → PObj → PObj
end

/-- Dictionary lookup, first matching key. -/
def olookup (k : String) : PObj → Option PVal
  | PObj.nil => none
  | PObj.cons k1 v rest => if k1 = k then some v else olookup k rest

/-- Remove every binding of key `k` (Python `dict.pop`). -/
def oerase (k : String) : PObj → PObj
  | PObj.nil => PObj.nil
  | PObj.cons k1 v rest =>
    if k1 = k then oerase k rest else PObj.cons k1 v (oerase k rest)

/-- Python dict assignment `d[k] = v`: update in place if present,
append otherwise. -/
def oset (k : String) (v : PVal) : PObj → PObj
  | PObj.nil => PObj.cons k v PObj.nil
  | PObj.cons k1 v1 rest =>
    if k1 = k then PObj.cons k v rest else PObj.cons k1 v1 (oset k v rest)

/-- The keys of a dictionary, in order. -/
def okeys : PObj → List String
  | PObj.nil => []
  | PObj.cons k _ rest => k :: okeys rest

/-- Number of bindings of a dictionary. -/
def olen : PObj → Nat
  | PObj.nil => 0
  | PObj.cons _ _ rest => olen rest + 1

mutual
/-- Modelled from the spec: `geoips.geoips_utils.merge_nested_dicts` is not
under src/.  Per section 4.5 of the spec ("its field tree is deep-merged
underneath the current plugin's own fields: every field already set on the
specific plugin wins; every field absent on the specific plugin but present
in the defaults is filled in") and the in-source comment in
`interfaces/yaml_based/products.py` ("This updates missing values in spec
from defaults but leaves existing values alone"), `merge_nested_dicts(dest,
src)` keeps every value of `dest`, recursively merging when both sides bind
a key to a dictionary, and appends the keys of `src` that `dest` lacks.
`mergeVal` merges one destination value with one source value: dictionaries
merge recursively, any other destination value wins. -/
def mergeVal : PVal → PVal → PVal
  | PVal.node d, PVal.node s => PVal.node (mergeObj d s)
  | v, _ => v

/-- Modelled from the spec: dictionary part of `merge_nested_dicts`
(see `mergeVal`).  Destination bindings are kept (merged when the source
also binds the key), then leftover source bindings are appended. -/
def mergeObj : PObj → PObj → PObj
  | PObj.nil, src => src
  | PObj.cons k v rest, src =>
    match olookup k src with
    | some sv => PObj.cons k (mergeVal v sv) (mergeObj rest (oerase k src))
    | none => PObj.cons k v (mergeObj rest src)
end

theorem olookup_oerase_ne (k k1 : String) (h : k1 ≠ k) :
    (s : PObj) → olookup k (oerase k1 s) = olookup k s
  | PObj.nil => rfl
  | PObj.cons k2 v rest => by
    by_cases h2 : k2 = k1
    · have hk : k2 ≠ k := by rw [h2]; exact h
      simp [oerase, olookup, h2, h, hk, olookup_oerase_ne k k1 h rest]
    · by_cases h3 : k2 = k
      · simp [oerase, olookup, h2, h3, Ne.symm h, olookup_oerase_ne k k1 h rest]
      · simp [oerase, olookup, h2, h3, olookup_oerase_ne k k1 h rest]

/-- Lookup in a merged dictionary: the destination value wins (merged with
the source value when both are present), source values fill the gaps. -/
theorem olookup_mergeObj (k : String) :
    (d s : PObj) → olookup k (mergeObj d s) =
      match olookup k d, olookup k s with
      | some v, some sv => some (mergeVal v sv)
      | some v, none => some v
      | none, o => o
  | PObj.nil, s => by
    cases h : olookup k s <;> simp [mergeObj, olookup, h]
  | PObj.cons k1 v rest, s => by
    by_cases h1 : k1 = k
    · cases h : olookup k1 s <;>
        simp [mergeObj, olookup, h, h1, h1 ▸ h]
    · cases h : olookup k1 s
      · simpa [mergeObj, olookup, h, h1] using olookup_mergeObj k rest s
      · have := olookup_mergeObj k rest (oerase k1 s)
        rw [olookup_oerase_ne k k1 h1 s] at this
        simpa [mergeObj, olookup, h, h1] using this

theorem olookup_oset_self (k : String) (v : PVal) :
    (d : PObj) → olookup k (oset k v d) = some v
  | PObj.nil => by simp [oset, olookup]
  | PObj.cons k1 v1 rest => by
    by_cases h1 : k1 = k
    · simp [oset, olookup, h1]
    · simp [oset, olookup, h1, olookup_oset_self k v rest]

theorem olookup_oset_ne (k k1 : String) (v : PVal) (h : k1 ≠ k) :
    (d : PObj) → olookup k (oset k1 v d) = olookup k d
  | PObj.nil => by simp [oset, olookup, h]
  | PObj.cons k2 v2 rest => by
    by_cases h2 : k2 = k1
    · have hk : k2 ≠ k := by rw [h2]; exact h
      simp [oset, olookup, h2, h, hk]
    · by_cases h3 : k2 = k
      · simp [oset, olookup, h2, h3, Ne.symm h]
      · simp [oset, olookup, h2, h3, olookup_oset_ne k k1 v h rest]

theorem olookup_oerase_self (k : String) :
    (s : PObj) → olookup k (oerase k s) = none
  | PObj.nil => rfl
  | PObj.cons k1 v rest => by
    by_cases h1 : k1 = k
    · simp [oerase, olookup, h1, olookup_oerase_self k rest]
    · simp [oerase, olookup, h1, olookup_oerase_self k rest]

/-- Typed errors raised by the embedded GeoIPS code (`geoips/errors.py`
plus the Python built-in exceptions the sources raise or catch). -/
inductive GErr where
  | pluginRegistryError (msg : String)
  | validationError (msg : String)
  | keyError (k : String)
  | attributeError (msg : String)
  | otherError (msg : String)
deriving Repr, DecidableEq

/-- Association-list lookup (Python dict indexing) for the outer registry
levels, whose values are not merged recursively. -/
def alookup {κ α : Type} [DecidableEq κ] (k : κ) : List (κ × α) → Option α
  | [] => none
  | (k1, v) :: rest => if k1 = k then some v else alookup k rest

/-- Python dict assignment `d[k] = v` at the outer registry levels:
update in place if the key is present, append otherwise. -/
def aset {κ α : Type} [DecidableEq κ] (k : κ) (v : α) :
    List (κ × α) → List (κ × α)
  | [] => [(k, v)]
  | (k1, v1) :: rest =>
    if k1 = k then (k, v) :: rest else (k1, v1) :: aset k v rest

/-- One plugin type's worth of a registry record: interface name mapped to
the interface's plugin dictionary (plugin name to location metadata). -/
abbrev TypeDict := List (String × PObj)

/-- A persisted per-package registry record as loaded by
`PluginRegistry._set_class_properties`: plugin type mapped to a
`TypeDict`. -/
abbrev RegRecord := List (String × TypeDict)

/-- The in-memory state built by `PluginRegistry._set_class_properties`:
`registered` is `_registered_plugins`, `mapping` is `_interface_mapping`. -/
structure RegState where
  registered : List (String × TypeDict)
  mapping : List (String × List String)

/-- Loop body of `PluginRegistry.ensure_plugin_types_exist`: raise a
`PluginRegistryError` at the first expected plugin type missing from the
record. -/
def ensureTypes (r : RegRecord) (regPath : String) :
    List String → Except GErr Unit
  | [] => Except.ok ()
  | p :: rest =>
    if (alookup p r).isSome then ensureTypes r regPath rest
    else
      Except.error (GErr.pluginRegistryError
        ("Expected plugin type '" ++ p ++ "' to be in the registry but" ++
         " wasn't. This was in file '" ++ regPath ++ "'."))

/-- PluginRegistry.ensure_plugin_types_exist
(`geoips/plugin_registry.py`, lines 166-173). -/
def ensurePluginTypesExist (r : RegRecord) (regPath : String) :
    Except GErr Unit :=
  ensureTypes r regPath ["yaml_based", "module_based", "text_based"]

/-- Inner loop of `_set_class_properties` (`geoips/plugin_registry.py`,
lines 98-109): fold one package record's interfaces for one plugin type
into the accumulated interface dictionary `cur` and interface-mapping list
`curMap`.  A new interface is assigned directly and its name appended to
the mapping; an existing interface is extended with `merge_nested_dicts`. -/
def mergeInterfaces (cur : TypeDict) (curMap : List String) :
    TypeDict → TypeDict × List String
  | [] => (cur, curMap)
  | (iface, idict) :: rest =>
    match alookup iface cur with
    | none => mergeInterfaces (cur ++ [(iface, idict)]) (curMap ++ [iface]) rest
    | some ex => mergeInterfaces (aset iface (mergeObj ex idict) cur) curMap rest

/-- Outer loop of `_set_class_properties` (`geoips/plugin_registry.py`,
lines 94-109): fold one package record into the registry state, creating
the empty dictionary and mapping list for a plugin type on first sight. -/
def mergeTypes (st : RegState) : RegRecord → RegState
  | [] => st
  | (ptype, tdict) :: rest =>
    let st1 : RegState :=
      if (alookup ptype st.registered).isSome then st
      else { registered := st.registered ++ [(ptype, [])],
             mapping := st.mapping ++ [(ptype, [])] }
    let cur := (alookup ptype st1.registered).getD []
    let curMap := (alookup ptype st1.mapping).getD []
    let r := mergeInterfaces cur curMap tdict
    mergeTypes { registered := aset ptype r.1 st1.registered,
                 mapping := aset ptype r.2 st1.mapping } rest

/-- File loop of `_set_class_properties` (`geoips/plugin_registry.py`,
lines 77-109).  A missing registry file raises a `PluginRegistryError`;
an existing file's record is checked by `ensure_plugin_types_exist`, whose
error is caught and only printed (collected in the second component), and
is then merged into the state regardless. -/
def loadRegistries (fs : String → Option RegRecord) :
    RegState → List GErr → List String → Except GErr (RegState × List GErr)
  | st, printed, [] => Except.ok (st, printed)
  | st, printed, path :: rest =>
    match fs path with
    | none =>
      Except.error (GErr.pluginRegistryError
        ("Plugin registry " ++ path ++ " did not exist, " ++
         "please run 'create_plugin_registries'"))
    | some r =>
      let printed1 :=
        match ensurePluginTypesExist r path with
        | Except.ok _ => printed
        | Except.error e => printed ++ [e]
      loadRegistries fs (mergeTypes st r) printed1 rest

/-- PluginRegistry._set_class_properties (`geoips/plugin_registry.py`,
lines 56-112) on the list of registry file paths, with the file system
modelled as a partial map from path to loaded record. -/
def setClassProperties (files : List String) (fs : String → Option RegRecord) :
    Except GErr (RegState × List GErr) :=
  loadRegistries fs { registered := [], mapping := [] } [] files

/-- Nested lookup into the merged registry:
`registered_plugins[ptype][iface][name]`. -/
def regLookup (st : RegState) (ptype iface nm : String) : Option PVal :=
  match alookup ptype st.registered with
  | none => none
  | some td =>
    match alookup iface td with
    | none => none
    | some d => olookup nm d

/-- Lookup of one location field of one registered plugin:
`registered_plugins[ptype][iface][name][field]`. -/
def regFieldLookup (st : RegState) (ptype iface nm fld : String) : Option PVal :=
  match regLookup st ptype iface nm with
  | some (PVal.node e) => olookup fld e
  | _ => none

/-- A package record binds some entry at `ptype -> iface -> name`
(membership-based, so it covers every occurrence in the record). -/
def recHas (r : RegRecord) (ptype iface nm : String) : Prop :=
  ∃ td, (ptype, td) ∈ r ∧ ∃ d, (iface, d) ∈ td ∧ (olookup nm d).isSome

/-! Registry builder, `geoips/create_plugin_registry.py`. -/

/-- The fields of a parsed YAML plugin file that `add_yaml_plugin` reads:
`plugin["interface"]`, `plugin["family"]`, `plugin["name"]`, the sub-plugin
list `plugin["spec"][interface_module.name]` used for "list"-family
plugins, and the file's paths. -/
structure YamlFile where
  interface : String
  family : String
  pname : String
  subplugins : List PObj
  abspath : String
  relpath : String

/-- Import behaviour of one scanned module file, as observed by
`add_module_plugin`: module-level `interface` and `name` attributes are
present, or importing raises, or an attribute is missing. -/
inductive ImportOutcome where
  | attrs (iface : String) (modname : String)
  | raisesImportError
  | raisesOtherError (msg : String)
  | missingInterfaceAttr
  | missingNameAttr (iface : String)

/-- One scanned module file. -/
structure ModuleFile where
  abspath : String
  relpath : String
  isInit : Bool
  outcome : ImportOutcome

/-- Modelled from the spec: the interface-specific registry-name derivation
`_create_registered_plugin_names` lives in `interfaces/base.py`, which is
not under src/.  Per section 4.2 the interface exposes a "derive plugin
names" rule producing one registry entry per derived sub-plugin name, and a
sub-entry missing a required key raises a `KeyError`; the model derives the
sub-plugin's `name` key. -/
def deriveNames (sub : PObj) : Except GErr (List String) :=
  match olookup "name" sub with
  | some (PVal.atom n) => Except.ok [n]
  | some (PVal.num n) => Except.ok [toString n]
  | some (PVal.node _) => Except.ok ["dict"]
  | none => Except.error (GErr.keyError "name")

/-- Registry entry written for one sub-plugin of a "list"-family YAML file
(`create_plugin_registry.py`, lines 146-150). -/
def entryVal3 (package relpath abspath : String) : PVal :=
  PVal.node (PObj.cons "package" (PVal.atom package)
    (PObj.cons "relpath" (PVal.atom relpath)
      (PObj.cons "abspath" (PVal.atom abspath) PObj.nil)))

/-- Registry entry written for a non-list YAML plugin
(`create_plugin_registry.py`, lines 159-163). -/
def entryValPlain (abspath relpath package : String) : PVal :=
  PVal.node (PObj.cons "abspath" (PVal.atom abspath)
    (PObj.cons "relpath" (PVal.atom relpath)
      (PObj.cons "package" (PVal.atom package) PObj.nil)))

/-- Assignment `plugins[iface][nm] = v` on the builder's nested
dictionary. -/
def setIn (plugins : List (String × PObj)) (iface nm : String) (v : PVal) :
    List (String × PObj) :=
  aset iface (oset nm v ((alookup iface plugins).getD PObj.nil)) plugins

/-- Sub-plugin loop of `add_yaml_plugin` for "list"-family plugins
(`create_plugin_registry.py`, lines 140-157): each sub-plugin's derived
names are registered with the file's location entry; a `KeyError` from the
name derivation is logged as one warning (counted in the second component)
and that sub-plugin is skipped. -/
def processSubplugins (iface : String) (entry : PVal)
    (acc : List (String × PObj) × Nat) :
    List PObj → List (String × PObj) × Nat
  | [] => acc
  | sub :: rest =>
    match deriveNames sub with
    | Except.ok names =>
      processSubplugins iface entry
        (names.foldl (fun ps n => setIn ps iface n entry) acc.1, acc.2) rest
    | Except.error _ => processSubplugins iface entry (acc.1, acc.2 + 1) rest

/-- add_yaml_plugin (`create_plugin_registry.py`, lines 110-163).  `known`
models the attributes of `geoips.interfaces`: an interface name outside it
makes `getattr` raise an `AttributeError`.  Returns the updated builder
dictionary and the number of warnings logged. -/
def addYamlPlugin (known : List String) (package : String) (yf : YamlFile)
    (plugins : List (String × PObj)) :
    Except GErr (List (String × PObj) × Nat) :=
  if yf.interface ∈ known then
    let plugins1 := if (alookup yf.interface plugins).isSome then plugins
                    else plugins ++ [(yf.interface, PObj.nil)]
    if yf.family = "list" then
      Except.ok (processSubplugins yf.interface
        (entryVal3 package yf.relpath yf.abspath) (plugins1, 0) yf.subplugins)
    else
      Except.ok (setIn plugins1 yf.interface yf.pname
        (entryValPlain yf.abspath yf.relpath package), 0)
  else
    Except.error (GErr.attributeError
      ("module geoips.interfaces has no attribute " ++ yf.interface))

/-- add_module_plugin (`create_plugin_registry.py`, lines 197-226).
Initializer files are skipped; `ImportError` and `AttributeError` are
caught, logged at debug level and skipped (note that a module exposing
`interface` but not `name` still leaves behind the empty interface
dictionary created before the failing attribute access); any other
exception raised while importing propagates.  A successful module
contributes an entry holding only its `abspath`. -/
def addModulePlugin (m : ModuleFile) (plugins : List (String × PObj)) :
    Except GErr (List (String × PObj)) :=
  if m.isInit then Except.ok plugins
  else
    match m.outcome with
    | ImportOutcome.raisesImportError => Except.ok plugins
    | ImportOutcome.raisesOtherError msg => Except.error (GErr.otherError msg)
    | ImportOutcome.missingInterfaceAttr => Except.ok plugins
    | ImportOutcome.missingNameAttr iface =>
      Except.ok (if (alookup iface plugins).isSome then plugins
                 else plugins ++ [(iface, PObj.nil)])
    | ImportOutcome.attrs iface nm =>
      let plugins1 := if (alookup iface plugins).isSome then plugins
                      else plugins ++ [(iface, PObj.nil)]
      Except.ok (setIn plugins1 iface nm
        (PVal.node (PObj.cons "abspath" (PVal.atom m.abspath) PObj.nil)))

/-- Fold of `add_yaml_plugin` over a package's YAML files
(`parse_plugin_paths`), accumulating warnings. -/
def addYamlPlugins (known : List String) (package : String) :
    List (String × PObj) × Nat → List YamlFile →
    Except GErr (List (String × PObj) × Nat)
  | acc, [] => Except.ok acc
  | acc, yf :: rest =>
    match addYamlPlugin known package yf acc.1 with
    | Except.error e => Except.error e
    | Except.ok r => addYamlPlugins known package (r.1, acc.2 + r.2) rest

/-- Fold of `add_module_plugin` over a package's module files
(`parse_plugin_paths`). -/
def addModulePlugins :
    List (String × PObj) → List ModuleFile → Except GErr (List (String × PObj))
  | acc, [] => Except.ok acc
  | acc, m :: rest =>
    match addModulePlugin m acc with
    | Except.error e => Except.error e
    | Except.ok r => addModulePlugins r rest

/-- create_plugin_registry / parse_plugin_paths for one package
(`create_plugin_registry.py`, lines 61-107): YAML files first, then module
files.  The result is the nested dictionary persisted by
`write_registered_plugins` (keyed directly by interface name) together with
the number of warnings logged. -/
def buildPackageRecord (known : List String) (package : String)
    (yamls : List YamlFile) (pys : List ModuleFile) :
    Except GErr (List (String × PObj) × Nat) :=
  match addYamlPlugins known package ([], 0) yamls with
  | Except.error e => Except.error e
  | Except.ok acc =>
    match addModulePlugins acc.1 pys with
    | Except.error e => Except.error e
    | Except.ok ps => Except.ok (ps, acc.2)

/-! Products interface, `geoips/interfaces/yaml_based/products.py`. -/

/-- Modelled from the spec: `YamlPluginValidator.validate` lives in
`interfaces/base.py`, which is not under src/.  Per sections 4.1 and 6 a
declarative plugin must carry the required top-level keys `interface`,
`family` and `name` and is validated against the schema contract declared
for its interface and family; `validators` models the set of known schema
validator identifiers `interface.family`. -/
def baseValidate (validators : List String) (plugin : PObj) :
    Except GErr PObj :=
  match olookup "interface" plugin, olookup "name" plugin,
        olookup "family" plugin with
  | some (PVal.atom ifn), some _, some (PVal.atom fam) =>
    if (ifn ++ "." ++ fam) ∈ validators then Except.ok plugin
    else Except.error (GErr.validationError
      ("no schema for " ++ ifn ++ "." ++ fam))
  | _, _, _ =>
    Except.error (GErr.validationError "missing required top-level key")

/-- ProductsPluginValidator.validate_product
(`interfaces/yaml_based/products.py`, lines 42-69).  A family-carrying
product is validated against the `product_defaults.specs.{family}` spec
validator; a defaults-carrying product pops `product_defaults`, resolves
the named defaults plugin (`defaultsStore` models the product_defaults
interface resolver, whose module is not under src/), copies its `family`,
and deep-merges the defaults underneath the product's own fields; a product
carrying neither raises a `ValidationError`. -/
def validateProduct (validators : List String)
    (defaultsStore : List (String × PObj)) (product : PObj) :
    Except GErr PObj :=
  match olookup "family" product with
  | some (PVal.atom fam) =>
    if ("product_defaults.specs." ++ fam) ∈ validators then
      match olookup "spec" product with
      | some _ => Except.ok product
      | none => Except.error (GErr.keyError "spec")
    else
      Except.error (GErr.validationError
        ("No product_defaults spec for family " ++ fam))
  | some _ =>
    Except.error (GErr.validationError "family must be a string")
  | none =>
    match olookup "product_defaults" product with
    | some (PVal.atom dn) =>
      match alookup dn defaultsStore with
      | none =>
        Except.error (GErr.pluginRegistryError
          ("product_defaults plugin " ++ dn ++ " not found"))
      | some defaults =>
        match olookup "family" defaults with
        | none => Except.error (GErr.keyError "family")
        | some famv =>
          let product1 := oset "family" famv (oerase "product_defaults" product)
          Except.ok (mergeObj product1 defaults)
    | some _ =>
      Except.error (GErr.validationError "product_defaults must be a string")
    | none =>
      Except.error (GErr.validationError
        "Product did not specify either family or product_defaults.")

/-- ProductsPluginValidator.validate
(`interfaces/yaml_based/products.py`, lines 25-40): `family` and
`product_defaults` are mutually exclusive; a defaults-carrying plugin is
handled by `validate_product`, any other plugin by the base validator. -/
def productsValidate (validators : List String)
    (defaultsStore : List (String × PObj)) (plugin : PObj) :
    Except GErr PObj :=
  if (olookup "product_defaults" plugin).isSome then
    if (olookup "family" plugin).isSome then
      Except.error (GErr.validationError
        "Properties 'family' and 'product_defaults' are mutually exclusive.")
    else validateProduct validators defaultsStore plugin
  else baseValidate validators plugin

/-- Cache of validated product plugins, keyed by (source_name, name). -/
abbrev ProdCache := List ((String × String) × PObj)

/-- Modelled from the spec: `BaseYamlInterface.get_plugin` lives in
`interfaces/base.py`, which is not under src/.  Per sections 3 and 4.4 the
resolver returns the cached validated plugin object for the requested key
(the same object on repeated calls); an unknown key raises a not-found
error. -/
def baseGetPlugin (cache : ProdCache) (key : String × String) :
    Except GErr PObj :=
  match alookup key cache with
  | some p => Except.ok p
  | none => Except.error (GErr.pluginRegistryError "plugin not found")

/-- Override-argument selection of `ProductsInterface.get_plugin`
(`interfaces/yaml_based/products.py`, lines 103-110): the current product's
own override values if its name is a key, else the values under the special
key "all", else no override arguments. -/
def overrideSelect (nm : String) (o : List (String × PObj)) : PObj :=
  match alookup nm o with
  | some oa => oa
  | none =>
    match alookup "all" o with
    | some oa => oa
    | none => PObj.nil

/-- ProductsInterface.get_plugin
(`interfaces/yaml_based/products.py`, lines 88-115).  With an override map,
the selected override values are merged underneath the plugin's own spec
and `prod_plugin["spec"]` is assigned the result.  Since
`super().get_plugin` returned the cached object itself, that assignment
also updates the cache, which is why the updated cache is part of the
result. -/
def productsGetPlugin (cache : ProdCache) (sourceName nm : String)
    (override : Option (List (String × PObj))) :
    Except GErr (PObj × ProdCache) :=
  match baseGetPlugin cache (sourceName, nm) with
  | Except.error e => Except.error e
  | Except.ok prodPlugin =>
    match override with
    | none => Except.ok (prodPlugin, cache)
    | some o =>
      let overrideArgs : PObj := overrideSelect nm o
      match olookup "spec" prodPlugin with
      | some (PVal.node specd) =>
        let prod1 := oset "spec" (PVal.node (mergeObj specd overrideArgs))
          prodPlugin
        Except.ok (prod1, aset (sourceName, nm) prod1 cache)
      | _ => Except.error (GErr.keyError "spec")

/-! Helper lemmas about the association operations. -/

theorem alookup_aset_self {κ α : Type} [DecidableEq κ] (k : κ) (v : α) :
    (l : List (κ × α)) → alookup k (aset k v l) = some v
  | [] => by simp [aset, alookup]
  | (k1, v1) :: rest => by
    by_cases h1 : k1 = k
    · simp [aset, alookup, h1]
    · simp [aset, alookup, h1, alookup_aset_self k v rest]

theorem alookup_aset_ne {κ α : Type} [DecidableEq κ] (k k1 : κ) (v : α)
    (h : k1 ≠ k) : (l : List (κ × α)) → alookup k (aset k1 v l) = alookup k l
  | [] => by simp [aset, alookup, h]
  | (k2, v2) :: rest => by
    by_cases h2 : k2 = k1
    · have hk : k2 ≠ k := by rw [h2]; exact h
      simp [aset, alookup, h2, h, hk]
    · by_cases h3 : k2 = k
      · simp [aset, alookup, h2, h3, Ne.symm h]
      · simp [aset, alookup, h2, h3, alookup_aset_ne k k1 v h rest]

theorem alookup_append {κ α : Type} [DecidableEq κ] (k : κ) :
    (l1 l2 : List (κ × α)) → alookup k (l1 ++ l2) =
      match alookup k l1 with
      | some v => some v
      | none => alookup k l2
  | [], l2 => by simp [alookup]
  | (k1, v1) :: rest, l2 => by
    by_cases h1 : k1 = k
    · simp [alookup, h1]
    · simp [alookup, h1, alookup_append k rest l2]

/-- A destination value that is not a dictionary survives the merge. -/
theorem mergeVal_of_not_node (v s : PVal) (h : ∀ e, v ≠ PVal.node e) :
    mergeVal v s = v := by
  cases v with
  | atom a => cases s <;> rfl
  | num n => cases s <;> rfl
  | node e => exact absurd rfl (h e)

/-- The spec-modelled base validator only accepts plugins carrying a
`family` key. -/
theorem baseValidate_ok_family (validators : List String) (plugin r : PObj)
    (h : baseValidate validators plugin = Except.ok r) :
    (olookup "family" plugin).isSome := by
  unfold baseValidate at h
  cases hI : olookup "interface" plugin with
  | none => rw [hI] at h; exact absurd h (by simp)
  | some vI =>
    cases vI <;> rw [hI] at h
    · cases hN : olookup "name" plugin <;> rw [hN] at h
      · exact absurd h (by simp)
      · cases hF : olookup "family" plugin <;> rw [hF] at h
        · exact absurd h (by simp)
        · simp [hF]
    · exact absurd h (by simp)
    · exact absurd h (by simp)

/-- A missing registry file anywhere in the remaining file list makes the
loader loop raise a `PluginRegistryError` naming a missing file. -/
theorem loadRegistries_missing (fs : String → Option RegRecord) (p : String) :
    (files : List String) → (st : RegState) → (printed : List GErr) →
    p ∈ files → fs p = none →
    ∃ q, q ∈ files ∧ fs q = none ∧
      loadRegistries fs st printed files = Except.error
        (GErr.pluginRegistryError
          ("Plugin registry " ++ q ++ " did not exist, " ++
           "please run 'create_plugin_registries'"))
  | [], _, _, hp, _ => absurd hp (List.not_mem_nil p)
  | f :: rest, st, printed, hp, hmiss => by
    cases hf : fs f with
    | none =>
      exact ⟨f, List.mem_cons_self f rest, hf, by simp [loadRegistries, hf]⟩
    | some r =>
      have hpr : p ∈ rest := by
        rcases List.mem_cons.mp hp with h | h
        · rw [h] at hmiss; rw [hmiss] at hf; exact absurd hf (by simp)
        · exact h
      obtain ⟨q, hq, hqn, hload⟩ :=
        loadRegistries_missing fs p rest (mergeTypes st r)
          (match ensurePluginTypesExist r f with
           | Except.ok _ => printed
           | Except.error e => printed ++ [e]) hpr hmiss
      exact ⟨q, List.mem_cons_of_mem f hq, hqn, by
        simp only [loadRegistries, hf]
        exact hload⟩

/-! Claim theorems. -/

/-- C3: for every configured package whose persisted registry record file
does not exist on disk, the first access to `registered_plugins`
(`_set_class_properties`) raises a `PluginRegistryError` instructing the
operator to run 'create_plugin_registries'; the missing record is never
treated as the package having no plugins. -/
theorem claim_C3_missing_registry_record_raises
    (files : List String) (fs : String → Option RegRecord) (p : String)
    (hp : p ∈ files) (hmiss : fs p = none) :
    ∃ q, q ∈ files ∧ fs q = none ∧
      setClassProperties files fs = Except.error
        (GErr.pluginRegistryError
          ("Plugin registry " ++ q ++ " did not exist, " ++
           "please run 'create_plugin_registries'")) :=
  loadRegistries_missing fs p files { registered := [], mapping := [] } []
    hp hmiss

/-- Witness for C3 at a concrete file list and file system. -/
theorem claim_C3_witness :
    ∃ q, q ∈ ["present", "absent"] ∧
      (fun p => if p = "present" then some ([] : RegRecord) else none) q
        = none ∧
      setClassProperties ["present", "absent"]
        (fun p => if p = "present" then some ([] : RegRecord) else none) =
      Except.error (GErr.pluginRegistryError
        ("Plugin registry " ++ q ++ " did not exist, " ++
         "please run 'create_plugin_registries'")) :=
  claim_C3_missing_registry_record_raises ["present", "absent"]
    (fun p => if p = "present" then some ([] : RegRecord) else none)
    "absent" (by simp) (by simp)

/-- C4: products validation raises a `ValidationError` when both `family`
and `product_defaults` are present, raises a `ValidationError` when neither
is present, and succeeds only when exactly one of the two is present. -/
theorem claim_C4_family_defaults_mutually_exclusive
    (validators : List String) (store : List (String × PObj)) (plugin : PObj) :
    ((olookup "product_defaults" plugin).isSome →
      (olookup "family" plugin).isSome →
      productsValidate validators store plugin = Except.error
        (GErr.validationError
          "Properties 'family' and 'product_defaults' are mutually exclusive."))
    ∧ (olookup "product_defaults" plugin = none →
        olookup "family" plugin = none →
        ∃ msg, productsValidate validators store plugin =
          Except.error (GErr.validationError msg))
    ∧ (∀ r, productsValidate validators store plugin = Except.ok r →
        ((olookup "family" plugin).isSome ↔
          olookup "product_defaults" plugin = none)) := by
  refine ⟨fun h1 h2 => by simp [productsValidate, h1, h2], ?_, ?_⟩
  · intro h1 h2
    refine ⟨"missing required top-level key", ?_⟩
    have hbase : baseValidate validators plugin =
        Except.error (GErr.validationError "missing required top-level key") := by
      unfold baseValidate
      cases hI : olookup "interface" plugin with
      | none => rfl
      | some vI =>
        cases vI <;> try rfl
        cases hN : olookup "name" plugin <;> simp [h2]
    simp [productsValidate, h1, hbase]
  · intro r hr
    by_cases h1 : (olookup "product_defaults" plugin).isSome
    · by_cases h2 : (olookup "family" plugin).isSome
      · rw [productsValidate, if_pos h1, if_pos h2] at hr
        exact absurd hr (by simp)
      · constructor
        · intro h; exact absurd h h2
        · intro h; rw [h] at h1; exact absurd h1 (by simp)
    · rw [productsValidate, if_neg h1] at hr
      constructor
      · intro _; exact Option.not_isSome_iff_eq_none.mp h1
      · intro _; exact baseValidate_ok_family validators plugin r hr

/-- Witness for C4: a plugin with both keys is rejected, a plugin with
neither key is rejected, and validation of a correct family-only plugin
shows the success direction at a concrete input. -/
theorem claim_C4_witness :
    (productsValidate ["products.alg"] []
        (PObj.cons "family" (PVal.atom "alg")
          (PObj.cons "product_defaults" (PVal.atom "d") PObj.nil)) =
      Except.error (GErr.validationError
        "Properties 'family' and 'product_defaults' are mutually exclusive."))
    ∧ (∃ msg, productsValidate ["products.alg"] []
        (PObj.cons "name" (PVal.atom "p") PObj.nil) =
      Except.error (GErr.validationError msg))
    ∧ ((olookup "family" (PObj.cons "interface" (PVal.atom "products")
          (PObj.cons "name" (PVal.atom "p")
            (PObj.cons "family" (PVal.atom "alg") PObj.nil)))).isSome ↔
        olookup "product_defaults"
          (PObj.cons "interface" (PVal.atom "products")
            (PObj.cons "name" (PVal.atom "p")
              (PObj.cons "family" (PVal.atom "alg") PObj.nil))) = none) :=
  ⟨(claim_C4_family_defaults_mutually_exclusive ["products.alg"] [] _).1
      (by simp [olookup]) (by simp [olookup]),
   (claim_C4_family_defaults_mutually_exclusive ["products.alg"] [] _).2.1
      (by simp [olookup]) (by simp [olookup]),
   (claim_C4_family_defaults_mutually_exclusive ["products.alg"] [] _).2.2
      _ (by rfl)⟩

/-- C5: validating a defaults-carrying product resolves the referenced
defaults plugin, copies its `family` onto the product, and deep-merges the
defaults underneath the product's own fields: every non-dictionary field
already set on the product keeps its value, and every field absent from the
product takes the defaults' value. -/
theorem claim_C5_defaults_merge
    (validators : List String) (store : List (String × PObj))
    (product ddict : PObj) (dn fam : String)
    (hfam : olookup "family" product = none)
    (hpd : olookup "product_defaults" product = some (PVal.atom dn))
    (hstore : alookup dn store = some ddict)
    (hdfam : olookup "family" ddict = some (PVal.atom fam)) :
    ∃ r, validateProduct validators store product = Except.ok r ∧
      olookup "family" r = some (PVal.atom fam) ∧
      (∀ k v, k ≠ "product_defaults" → olookup k product = some v →
        (∀ e, v ≠ PVal.node e) → olookup k r = some v) ∧
      (∀ k, olookup k product = none → olookup k r = olookup k ddict) := by
  have hvp : validateProduct validators store product = Except.ok
      (mergeObj (oset "family" (PVal.atom fam)
        (oerase "product_defaults" product)) ddict) := by
    simp [validateProduct, hfam, hpd, hstore, hdfam]
  refine ⟨_, hvp, ?_, ?_, ?_⟩
  · rw [olookup_mergeObj, olookup_oset_self, hdfam]
    rfl
  · intro k v hkne hkv hvnn
    have hkfam : ¬("family" = k) := by
      intro h; rw [← h] at hkv; rw [hfam] at hkv; exact absurd hkv (by simp)
    have h1 : olookup k (oset "family" (PVal.atom fam)
        (oerase "product_defaults" product)) = some v := by
      rw [olookup_oset_ne k "family" _ hkfam,
        olookup_oerase_ne k "product_defaults" (Ne.symm hkne), hkv]
    rw [olookup_mergeObj, h1]
    cases hd : olookup k ddict
    · rfl
    · simp [mergeVal_of_not_node v _ hvnn]
  · intro k hk
    by_cases hkfam : k = "family"
    · rw [hkfam, olookup_mergeObj, olookup_oset_self, hdfam]
      rfl
    · have hkpd : ¬("product_defaults" = k) := by
        intro h; rw [← h] at hk; rw [hpd] at hk; exact absurd hk (by simp)
      have h1 : olookup k (oset "family" (PVal.atom fam)
          (oerase "product_defaults" product)) = none := by
        rw [olookup_oset_ne k "family" _ (fun h => hkfam h.symm),
          olookup_oerase_ne k "product_defaults" hkpd, hk]
      rw [olookup_mergeObj, h1]

/-- Witness for C5 at the spec's own example: specific X=5, defaults
X=1 and Y=2. -/
theorem claim_C5_witness :
    ∃ r, validateProduct []
        [("d", PObj.cons "family" (PVal.atom "fam1")
          (PObj.cons "X" (PVal.num 1) (PObj.cons "Y" (PVal.num 2) PObj.nil)))]
        (PObj.cons "product_defaults" (PVal.atom "d")
          (PObj.cons "X" (PVal.num 5) PObj.nil)) = Except.ok r ∧
      olookup "family" r = some (PVal.atom "fam1") ∧
      (∀ k v, k ≠ "product_defaults" →
        olookup k (PObj.cons "product_defaults" (PVal.atom "d")
          (PObj.cons "X" (PVal.num 5) PObj.nil)) = some v →
        (∀ e, v ≠ PVal.node e) → olookup k r = some v) ∧
      (∀ k, olookup k (PObj.cons "product_defaults" (PVal.atom "d")
          (PObj.cons "X" (PVal.num 5) PObj.nil)) = none →
        olookup k r = olookup k (PObj.cons "family" (PVal.atom "fam1")
          (PObj.cons "X" (PVal.num 1)
            (PObj.cons "Y" (PVal.num 2) PObj.nil)))) :=
  claim_C5_defaults_merge [] _ _ _ "d" "fam1" (by rfl) (by rfl) (by rfl)
    (by rfl)

/-- C7: resolving a product with an override map selects the plugin's own
entry when its name is a key, else the entry under "all"; the selected
values are merged with underneath-wins semantics after defaults
resolution, so an override field reaches the final spec exactly when the
plugin's own spec did not already set it, while non-dictionary fields the
spec did set keep their values. -/
theorem claim_C7_override_merge
    (cache : ProdCache) (sourceName nm : String) (prod : PObj) (specd : PObj)
    (o : List (String × PObj)) (p : PObj) (c2 : ProdCache)
    (hc : alookup (sourceName, nm) cache = some prod)
    (hs : olookup "spec" prod = some (PVal.node specd))
    (hr : productsGetPlugin cache sourceName nm (some o) = Except.ok (p, c2)) :
    olookup "spec" p = some (PVal.node (mergeObj specd (overrideSelect nm o)))
    ∧ (∀ k v, olookup k specd = none →
        olookup k (overrideSelect nm o) = some v →
        olookup k (mergeObj specd (overrideSelect nm o)) = some v)
    ∧ (∀ k v, olookup k specd = some v → (∀ e, v ≠ PVal.node e) →
        olookup k (mergeObj specd (overrideSelect nm o)) = some v) := by
  have hp : p = oset "spec" (PVal.node (mergeObj specd (overrideSelect nm o)))
      prod := by
    simp [productsGetPlugin, baseGetPlugin, hc, hs] at hr
    exact hr.1.symm
  refine ⟨?_, ?_, ?_⟩
  · rw [hp, olookup_oset_self]
  · intro k v hnone hsel
    rw [olookup_mergeObj, hnone, hsel]
  · intro k v hsome hvnn
    rw [olookup_mergeObj, hsome]
    cases hsel : olookup k (overrideSelect nm o)
    · rfl
    · simp [mergeVal_of_not_node v _ hvnn]

/-- Witness for C7 at the spec's example: override map with only an "all"
entry setting Y to 9, a plugin whose own spec does not set Y. -/
theorem claim_C7_witness :
    olookup "spec"
        (oset "spec" (PVal.node (mergeObj (PObj.cons "X" (PVal.num 5) PObj.nil)
          (overrideSelect "Infrared" [("all", PObj.cons "Y" (PVal.num 9) PObj.nil)])))
          (PObj.cons "spec" (PVal.node (PObj.cons "X" (PVal.num 5) PObj.nil))
            PObj.nil)) =
      some (PVal.node (mergeObj (PObj.cons "X" (PVal.num 5) PObj.nil)
        (overrideSelect "Infrared" [("all", PObj.cons "Y" (PVal.num 9) PObj.nil)])))
    ∧ (∀ k v, olookup k (PObj.cons "X" (PVal.num 5) PObj.nil) = none →
        olookup k (overrideSelect "Infrared"
          [("all", PObj.cons "Y" (PVal.num 9) PObj.nil)]) = some v →
        olookup k (mergeObj (PObj.cons "X" (PVal.num 5) PObj.nil)
          (overrideSelect "Infrared"
            [("all", PObj.cons "Y" (PVal.num 9) PObj.nil)])) = some v)
    ∧ (∀ k v, olookup k (PObj.cons "X" (PVal.num 5) PObj.nil) = some v →
        (∀ e, v ≠ PVal.node e) →
        olookup k (mergeObj (PObj.cons "X" (PVal.num 5) PObj.nil)
          (overrideSelect "Infrared"
            [("all", PObj.cons "Y" (PVal.num 9) PObj.nil)])) = some v) :=
  claim_C7_override_merge
    [(("abi", "Infrared"),
      PObj.cons "spec" (PVal.node (PObj.cons "X" (PVal.num 5) PObj.nil))
        PObj.nil)]
    "abi" "Infrared"
    (PObj.cons "spec" (PVal.node (PObj.cons "X" (PVal.num 5) PObj.nil))
      PObj.nil)
    (PObj.cons "X" (PVal.num 5) PObj.nil)
    [("all", PObj.cons "Y" (PVal.num 9) PObj.nil)] _ _
    (by rfl) (by rfl) (by rfl)

/-- C6 evaluated at its failing input: after one `get_plugin` call with an
override map, the cached base plugin has been mutated, so a second call
without overrides observes the overridden spec (Y=9) instead of the
original empty spec. -/
theorem claim_C6_code_bug_eval :
    ∃ p1 c1 p2 c2,
      productsGetPlugin
          [(("abi", "Infrared"),
            PObj.cons "spec" (PVal.node PObj.nil) PObj.nil)]
          "abi" "Infrared"
          (some [("all", PObj.cons "Y" (PVal.num 9) PObj.nil)]) =
        Except.ok (p1, c1) ∧
      productsGetPlugin c1 "abi" "Infrared" none = Except.ok (p2, c2) ∧
      olookup "spec" p2 =
        some (PVal.node (PObj.cons "Y" (PVal.num 9) PObj.nil)) ∧
      olookup "spec" p2 ≠ some (PVal.node PObj.nil) := by
    refine ⟨_, _, _, _, rfl, rfl, rfl, ?_⟩
    simp [olookup, oset, mergeObj, overrideSelect, alookup]

/-- The derived registry name of a sub-plugin, when its derivation does not
raise. -/
def derivedName (sub : PObj) : Option String :=
  match deriveNames sub with
  | Except.ok (n :: _) => some n
  | _ => none

/-- Name derivation either yields exactly one name or raises a KeyError. -/
theorem deriveNames_cases (sub : PObj) :
    (∃ nm, deriveNames sub = Except.ok [nm] ∧ derivedName sub = some nm) ∨
    (deriveNames sub = Except.error (GErr.keyError "name") ∧
      derivedName sub = none) := by
  cases h : olookup "name" sub with
  | none => right; constructor <;> simp [deriveNames, derivedName, h]
  | some v =>
    left
    cases v with
    | atom a => exact ⟨a, by simp [deriveNames, h], by simp [derivedName, deriveNames, h]⟩
    | num n => exact ⟨toString n, by simp [deriveNames, h], by simp [derivedName, deriveNames, h]⟩
    | node o => exact ⟨"dict", by simp [deriveNames, h], by simp [derivedName, deriveNames, h]⟩

theorem olen_oset_none (nm : String) (v : PVal) :
    (d : PObj) → olookup nm d = none → olen (oset nm v d) = olen d + 1
  | PObj.nil, _ => rfl
  | PObj.cons k1 v1 rest, h => by
    by_cases h1 : k1 = nm
    · rw [olookup] at h
      simp [h1] at h
    · rw [olookup] at h
      rw [if_neg h1] at h
      simp [oset, olen, h1, olen_oset_none nm v rest h]

theorem filterMap_length_all_some {α β : Type} (f : α → Option β) :
    (l : List α) → (∀ x ∈ l, (f x).isSome) →
    (l.filterMap f).length = l.length
  | [], _ => rfl
  | x :: rest, h => by
    cases hx : f x with
    | none =>
      have := h x (List.mem_cons_self x rest)
      rw [hx] at this
      exact absurd this (by simp)
    | some b =>
      have hr := filterMap_length_all_some f rest
        (fun y hy => h y (List.mem_cons_of_mem x hy))
      simp [List.filterMap_cons, hx, hr]

theorem filterMap_length_le {α β : Type} (f : α → Option β) :
    (l : List α) → (l.filterMap f).length ≤ l.length
  | [] => Nat.le_refl 0
  | x :: rest => by
    cases hx : f x
    · simp only [List.filterMap_cons, hx]
      exact Nat.le_succ_of_le (filterMap_length_le f rest)
    · simp only [List.filterMap_cons, hx, List.length_cons]
      exact Nat.succ_le_succ (filterMap_length_le f rest)

/-- Counting lemma for the sub-plugin loop: starting from an interface
dictionary `d` none of whose keys collide with the derived names, the loop
adds one entry per successfully derived (pairwise distinct) name and logs
one warning per failing sub-plugin. -/
theorem processSubplugins_count (iface : String) (entry : PVal) :
    (subs : List PObj) → (plugins : List (String × PObj)) → (w : Nat) →
    (d : PObj) →
    alookup iface plugins = some d →
    (subs.filterMap derivedName).Nodup →
    (∀ nm ∈ subs.filterMap derivedName, olookup nm d = none) →
    ∃ d2,
      alookup iface (processSubplugins iface entry (plugins, w) subs).1 =
        some d2 ∧
      olen d2 = olen d + (subs.filterMap derivedName).length ∧
      (processSubplugins iface entry (plugins, w) subs).2 =
        w + (subs.length - (subs.filterMap derivedName).length)
  | [], plugins, w, d, hd, _, _ =>
    ⟨d, by simpa [processSubplugins] using hd, by simp [processSubplugins],
      by simp [processSubplugins]⟩
  | sub :: rest, plugins, w, d, hd, hnodup, hfresh => by
    rcases deriveNames_cases sub with ⟨nm, hok, hdn⟩ | ⟨herr, hdn⟩
    · have hfm : (sub :: rest).filterMap derivedName =
          nm :: rest.filterMap derivedName := by
        simp [List.filterMap_cons, hdn]
      rw [hfm] at hnodup hfresh
      have hstep : processSubplugins iface entry (plugins, w) (sub :: rest) =
          processSubplugins iface entry (setIn plugins iface nm entry, w)
            rest := by
        simp [processSubplugins, hok]
      have hal : alookup iface (setIn plugins iface nm entry) =
          some (oset nm entry d) := by
        simp [setIn, hd, alookup_aset_self]
      have hnm : olookup nm d = none := hfresh nm (List.mem_cons_self _ _)
      have hfresh1 : ∀ x ∈ rest.filterMap derivedName,
          olookup x (oset nm entry d) = none := by
        intro x hx
        have hxne : nm ≠ x := by
          intro hcontra
          exact (List.nodup_cons.mp hnodup).1 (hcontra ▸ hx)
        rw [olookup_oset_ne x nm entry hxne]
        exact hfresh x (List.mem_cons_of_mem _ hx)
      obtain ⟨d2, h1, h2, h3⟩ := processSubplugins_count iface entry rest
        (setIn plugins iface nm entry) w (oset nm entry d) hal
        (List.nodup_cons.mp hnodup).2 hfresh1
      rw [olen_oset_none nm entry d hnm] at h2
      have hle := filterMap_length_le derivedName rest
      refine ⟨d2, by rw [hstep]; exact h1, ?_, ?_⟩
      · rw [h2, hfm]
        simp only [List.length_cons]
        omega
      · rw [hstep, h3, hfm]
        simp only [List.length_cons]
        omega
    · have hfm : (sub :: rest).filterMap derivedName =
          rest.filterMap derivedName := by
        simp [List.filterMap_cons, hdn]
      rw [hfm] at hnodup hfresh
      have hstep : processSubplugins iface entry (plugins, w) (sub :: rest) =
          processSubplugins iface entry (plugins, w + 1) rest := by
        simp [processSubplugins, herr]
      obtain ⟨d2, h1, h2, h3⟩ := processSubplugins_count iface entry rest
        plugins (w + 1) d hd hnodup hfresh
      have hle := filterMap_length_le derivedName rest
      refine ⟨d2, by rw [hstep]; exact h1, by rw [h2, hfm], ?_⟩
      rw [hstep, h3, hfm]
      simp only [List.length_cons]
      omega

/-- C8: for a "list"-family YAML plugin whose sub-entries derive pairwise
distinct names and exactly one of which is missing its required key,
registry building registers exactly N-1 expanded entries for that file and
logs exactly one warning. -/
theorem claim_C8_malformed_subplugin_skipped
    (known : List String) (package : String) (yf : YamlFile)
    (l1 l2 : List PObj) (bad : PObj) (e : GErr)
    (hin : yf.interface ∈ known)
    (hfam : yf.family = "list")
    (hsubs : yf.subplugins = l1 ++ bad :: l2)
    (hbad : deriveNames bad = Except.error e)
    (hgood : ∀ sub ∈ l1 ++ l2, (derivedName sub).isSome)
    (hnodup : ((l1 ++ l2).filterMap derivedName).Nodup) :
    ∃ ps w, addYamlPlugin known package yf [] = Except.ok (ps, w) ∧
      w = 1 ∧
      olen ((alookup yf.interface ps).getD PObj.nil) =
        yf.subplugins.length - 1 := by
  have hbadname : derivedName bad = none := by
    rcases deriveNames_cases bad with ⟨nm, hok, _⟩ | ⟨_, hdn⟩
    · rw [hok] at hbad; exact absurd hbad (by simp)
    · exact hdn
  have hfm : yf.subplugins.filterMap derivedName =
      (l1 ++ l2).filterMap derivedName := by
    rw [hsubs]
    simp [List.filterMap_append, List.filterMap_cons, hbadname]
  have hlen : ((l1 ++ l2).filterMap derivedName).length =
      l1.length + l2.length := by
    rw [filterMap_length_all_some derivedName (l1 ++ l2) hgood]
    simp
  have hplug : alookup yf.interface ([] ++ [(yf.interface, PObj.nil)]) =
      some PObj.nil := by simp [alookup]
  obtain ⟨d2, h1, h2, h3⟩ := processSubplugins_count yf.interface
    (entryVal3 package yf.relpath yf.abspath) yf.subplugins
    ([] ++ [(yf.interface, PObj.nil)]) 0 PObj.nil hplug
    (by rw [hfm]; exact hnodup)
    (by intro nm _; rfl)
  have hay : addYamlPlugin known package yf [] = Except.ok
      (processSubplugins yf.interface
        (entryVal3 package yf.relpath yf.abspath)
        ([] ++ [(yf.interface, PObj.nil)], 0) yf.subplugins) := by
    simp [addYamlPlugin, hin, hfam, alookup]
  refine ⟨_, _, by rw [hay], ?_, ?_⟩
  · rw [h3, hfm, hlen, hsubs]
    simp
    omega
  · rw [h1]
    simp only [Option.getD_some]
    rw [h2, hfm, hlen, hsubs]
    simp [olen]

/-- Witness for C8: three sub-entries of which the middle one lacks its
name key yield two registered entries and one warning. -/
theorem claim_C8_witness :
    ∃ ps w, addYamlPlugin ["products"] "geoips"
        { interface := "products", family := "list", pname := "myset",
          subplugins := [PObj.cons "name" (PVal.atom "a") PObj.nil,
            PObj.cons "other" (PVal.atom "x") PObj.nil,
            PObj.cons "name" (PVal.atom "b") PObj.nil],
          abspath := "/g/myset.yaml", relpath := "myset.yaml" } [] =
      Except.ok (ps, w) ∧ w = 1 ∧
      olen ((alookup "products" ps).getD PObj.nil) =
        ([PObj.cons "name" (PVal.atom "a") PObj.nil,
          PObj.cons "other" (PVal.atom "x") PObj.nil,
          PObj.cons "name" (PVal.atom "b") PObj.nil] : List PObj).length - 1 :=
  claim_C8_malformed_subplugin_skipped ["products"] "geoips" _
    [PObj.cons "name" (PVal.atom "a") PObj.nil]
    [PObj.cons "name" (PVal.atom "b") PObj.nil]
    (PObj.cons "other" (PVal.atom "x") PObj.nil) (GErr.keyError "name")
    (by simp) (by rfl) (by rfl) (by rfl)
    (by decide) (by decide)

/-- The module-file fold completes normally when no file raises an
exception other than `ImportError` or `AttributeError` while importing. -/
theorem addModulePlugins_total :
    (files : List ModuleFile) → (acc : List (String × PObj)) →
    (∀ m ∈ files, m.isInit = true ∨
      (∃ i n, m.outcome = ImportOutcome.attrs i n) ∨
      m.outcome = ImportOutcome.raisesImportError ∨
      m.outcome = ImportOutcome.missingInterfaceAttr ∨
      ∃ i, m.outcome = ImportOutcome.missingNameAttr i) →
    ∃ ps, addModulePlugins acc files = Except.ok ps
  | [], acc, _ => ⟨acc, rfl⟩
  | m :: rest, acc, h => by
    have hm := h m (List.mem_cons_self m rest)
    have hrest := fun x hx => h x (List.mem_cons_of_mem m hx)
    have hok : ∃ ps1, addModulePlugin m acc = Except.ok ps1 := by
      by_cases hi : m.isInit = true
      · exact ⟨acc, by simp [addModulePlugin, hi]⟩
      · have hi2 : m.isInit = false := by simpa using hi
        rcases hm with h1 | ⟨i, n, h1⟩ | h1 | h1 | ⟨i, h1⟩
        · exact absurd h1 hi
        · exact ⟨setIn (if (alookup i acc).isSome then acc
              else acc ++ [(i, PObj.nil)]) i n
              (PVal.node (PObj.cons "abspath" (PVal.atom m.abspath) PObj.nil)),
            by simp [addModulePlugin, hi2, h1]⟩
        · exact ⟨acc, by simp [addModulePlugin, hi2, h1]⟩
        · exact ⟨acc, by simp [addModulePlugin, hi2, h1]⟩
        · exact ⟨if (alookup i acc).isSome then acc else acc ++ [(i, PObj.nil)],
            by simp [addModulePlugin, hi2, h1]⟩
    obtain ⟨ps1, hps1⟩ := hok
    obtain ⟨ps, hps⟩ := addModulePlugins_total rest ps1 hrest
    exact ⟨ps, by simp [addModulePlugins, hps1, hps]⟩

/-- C9 as stated is false at this input: a module file whose import raises
an exception that is neither an `ImportError` nor an `AttributeError`
(here a ValueError) is not skipped; it aborts the scan, and the remaining
file is never processed. -/
theorem claim_C9_counterexample :
    addModulePlugins []
        [{ abspath := "/p/bad.py", relpath := "bad.py", isInit := false,
           outcome := ImportOutcome.raisesOtherError "ValueError" },
         { abspath := "/p/good.py", relpath := "good.py", isInit := false,
           outcome := ImportOutcome.attrs "algorithms" "good" }] =
      Except.error (GErr.otherError "ValueError") ∧
    ∀ ps, addModulePlugins []
        [{ abspath := "/p/bad.py", relpath := "bad.py", isInit := false,
           outcome := ImportOutcome.raisesOtherError "ValueError" },
         { abspath := "/p/good.py", relpath := "good.py", isInit := false,
           outcome := ImportOutcome.attrs "algorithms" "good" }] ≠
      Except.ok ps := by
  refine ⟨rfl, ?_⟩
  intro ps
  simp [addModulePlugins, addModulePlugin]

/-- C9 amended: a scanned module file that raises an `ImportError` on
import, or lacks the required module-level interface or name attribute
(an `AttributeError`), is skipped with no registry entry contributed, and
a scan whose files all import cleanly or fail only in those ways completes
normally; an import raising any other exception propagates and aborts the
scan. -/
theorem claim_C9_amended_import_skip :
    (∀ m plugins, m.isInit = false →
      (m.outcome = ImportOutcome.raisesImportError ∨
        m.outcome = ImportOutcome.missingInterfaceAttr) →
      addModulePlugin m plugins = Except.ok plugins)
    ∧ (∀ m plugins iface, m.isInit = false →
        m.outcome = ImportOutcome.missingNameAttr iface →
        ∃ ps, addModulePlugin m plugins = Except.ok ps ∧
          ∀ i nm, olookup nm ((alookup i ps).getD PObj.nil) =
            olookup nm ((alookup i plugins).getD PObj.nil))
    ∧ (∀ files acc, (∀ m ∈ files, m.isInit = true ∨
        (∃ i n, m.outcome = ImportOutcome.attrs i n) ∨
        m.outcome = ImportOutcome.raisesImportError ∨
        m.outcome = ImportOutcome.missingInterfaceAttr ∨
        (∃ i, m.outcome = ImportOutcome.missingNameAttr i)) →
        ∃ ps, addModulePlugins acc files = Except.ok ps)
    ∧ (∀ m plugins msg, m.isInit = false →
        m.outcome = ImportOutcome.raisesOtherError msg →
        addModulePlugin m plugins = Except.error (GErr.otherError msg)) := by
  refine ⟨?_, ?_, fun files acc h => addModulePlugins_total files acc h, ?_⟩
  · intro m plugins hi ho
    rcases ho with h1 | h1 <;> simp [addModulePlugin, hi, h1]
  · intro m plugins iface hi ho
    refine ⟨if (alookup iface plugins).isSome then plugins
        else plugins ++ [(iface, PObj.nil)],
      by simp [addModulePlugin, hi, ho], ?_⟩
    intro i nm
    by_cases hsome : (alookup iface plugins).isSome
    · simp [hsome]
    · simp only [hsome, if_neg, Bool.false_eq_true, ite_false]
      rw [alookup_append]
      cases hal : alookup i plugins with
      | some d => simp
      | none =>
        by_cases hii : iface = i
        · simp [alookup, hii, olookup]
        · simp [alookup, hii]
  · intro m plugins msg hi ho
    simp [addModulePlugin, hi, ho]

/-- Witness for C9 amended: a concrete scan containing an initializer, a
clean module, an ImportError module and two attribute-missing modules
completes normally. -/
theorem claim_C9_witness :
    ∃ ps, addModulePlugins []
        [{ abspath := "/p/__init__.py", relpath := "__init__.py",
           isInit := true, outcome := ImportOutcome.raisesImportError },
         { abspath := "/p/ok.py", relpath := "ok.py", isInit := false,
           outcome := ImportOutcome.attrs "algorithms" "ok" },
         { abspath := "/p/imp.py", relpath := "imp.py", isInit := false,
           outcome := ImportOutcome.raisesImportError },
         { abspath := "/p/noiface.py", relpath := "noiface.py",
           isInit := false, outcome := ImportOutcome.missingInterfaceAttr },
         { abspath := "/p/noname.py", relpath := "noname.py",
           isInit := false,
           outcome := ImportOutcome.missingNameAttr "readers" }] =
      Except.ok ps :=
  claim_C9_amended_import_skip.2.2.1 _ [] (by
    intro m hm
    simp only [List.mem_cons, List.not_mem_nil, or_false] at hm
    rcases hm with h | h | h | h | h <;> subst h <;> simp)


/-- The loader loop completes when every registry file exists, whatever
shape the loaded records have. -/
theorem loadRegistries_total (fs : String → Option RegRecord) :
    (files : List String) → (st : RegState) → (pr : List GErr) →
    (∀ p ∈ files, (fs p).isSome) →
    ∃ res, loadRegistries fs st pr files = Except.ok res
  | [], st, pr, _ => ⟨(st, pr), rfl⟩
  | f :: rest, st, pr, h => by
    obtain ⟨r, hr⟩ := Option.isSome_iff_exists.mp (h f (List.mem_cons_self f rest))
    obtain ⟨res, hres⟩ := loadRegistries_total fs rest (mergeTypes st r)
      (match ensurePluginTypesExist r f with
       | Except.ok _ => pr
       | Except.error e => pr ++ [e])
      (fun p hp => h p (List.mem_cons_of_mem f hp))
    refine ⟨res, ?_⟩
    simp only [loadRegistries, hr]
    exact hres

/-- C2 as stated is false at this input: the Registry Builder writes a
record keyed directly by interface name, without any of the three
plugin-kind keys; the module plugin's entry carries only `abspath`; and the
loader does not reject a record missing plugin-kind keys, it loads it
successfully (the registry error is only printed). -/
theorem claim_C2_counterexample :
    (∃ ps w, buildPackageRecord ["algorithms"] "pkg" []
        [{ abspath := "/p/alg1.py", relpath := "alg1.py", isInit := false,
           outcome := ImportOutcome.attrs "algorithms" "alg1" }] =
      Except.ok (ps, w) ∧
      alookup "yaml_based" ps = none ∧
      alookup "module_based" ps = none ∧
      alookup "text_based" ps = none ∧
      olookup "alg1" ((alookup "algorithms" ps).getD PObj.nil) =
        some (PVal.node (PObj.cons "abspath" (PVal.atom "/p/alg1.py")
          PObj.nil)))
    ∧ (∃ st pr, setClassProperties ["f"]
        (fun p => if p = "f" then some [("module_based", [])] else none) =
      Except.ok (st, pr)) := by
  constructor
  · exact ⟨_, _, rfl, rfl, rfl, rfl, rfl⟩
  · exact ⟨_, _, rfl⟩

/-- C2 amended: the Registry Builder writes per-package records keyed
directly by interface name (with no plugin-kind level); a non-list YAML
plugin's entry carries `abspath`, `relpath` and `package` while a module
plugin's entry carries only `abspath`; at load time
`ensure_plugin_types_exist` raises a `PluginRegistryError` for a record
missing one of the three plugin-kind keys, but `_set_class_properties`
catches and prints that error and merges the record anyway, so loading
succeeds whenever every record file exists. -/
theorem claim_C2_amended_record_shape :
    (∀ m plugins ps iface nm, m.isInit = false →
      m.outcome = ImportOutcome.attrs iface nm →
      addModulePlugin m plugins = Except.ok ps →
      olookup nm ((alookup iface ps).getD PObj.nil) =
        some (PVal.node (PObj.cons "abspath" (PVal.atom m.abspath)
          PObj.nil)))
    ∧ (∀ known package yf plugins ps w, yf.family ≠ "list" →
        addYamlPlugin known package yf plugins = Except.ok (ps, w) →
        olookup yf.pname ((alookup yf.interface ps).getD PObj.nil) =
          some (entryValPlain yf.abspath yf.relpath package))
    ∧ (∀ r path, alookup "yaml_based" r = none →
        ensurePluginTypesExist r path = Except.error
          (GErr.pluginRegistryError
            ("Expected plugin type 'yaml_based' to be in the registry but" ++
             " wasn't. This was in file '" ++ path ++ "'.")))
    ∧ (∀ files fs, (∀ p ∈ files, (fs p).isSome) →
        ∃ res, setClassProperties files fs = Except.ok res) := by
  refine ⟨?_, ?_, ?_, ?_⟩
  · intro m plugins ps iface nm hi ho hps
    simp only [addModulePlugin, hi, ho, Bool.false_eq_true, if_false,
      Except.ok.injEq] at hps
    rw [← hps, setIn, alookup_aset_self, Option.getD_some, olookup_oset_self]
  · intro known package yf plugins ps w hfam hps
    by_cases hin : yf.interface ∈ known
    · simp only [addYamlPlugin, hin, if_true, hfam, if_false,
        Except.ok.injEq, Prod.mk.injEq] at hps
      rw [← hps.1, setIn, alookup_aset_self, Option.getD_some,
        olookup_oset_self]
    · simp [addYamlPlugin, hin] at hps
  · intro r path h
    simp [ensurePluginTypesExist, ensureTypes, h]
  · intro files fs h
    exact loadRegistries_total fs files { registered := [], mapping := [] }
      [] h

/-- Witness for C2 amended: the loader accepts a concrete record that
lacks two of the three plugin-kind keys, while the check itself raises. -/
theorem claim_C2_witness :
    (ensurePluginTypesExist [("module_based", [])] "f" = Except.error
      (GErr.pluginRegistryError
        ("Expected plugin type 'yaml_based' to be in the registry but" ++
         " wasn't. This was in file 'f'.")))
    ∧ (∃ res, setClassProperties ["f"]
        (fun p => if p = "f" then some [("module_based", [])] else none) =
      Except.ok res) :=
  ⟨claim_C2_amended_record_shape.2.2.1 [("module_based", [])] "f" (by rfl),
   claim_C2_amended_record_shape.2.2.2 ["f"]
     (fun p => if p = "f" then some [("module_based", [])] else none)
     (by intro p hp; simp only [List.mem_singleton] at hp; simp [hp])⟩


/-! Lemmas for the interface-mapping invariant (C10). -/

theorem alookup_isSome_iff_mem {κ α : Type} [DecidableEq κ] (k : κ) :
    (l : List (κ × α)) → ((alookup k l).isSome ↔ k ∈ l.map Prod.fst)
  | [] => by simp [alookup]
  | (k1, v1) :: rest => by
    by_cases h1 : k1 = k
    · simp [alookup, h1]
    · simp [alookup, h1, alookup_isSome_iff_mem k rest, Ne.symm h1]

theorem alookup_some_mem {κ α : Type} [DecidableEq κ] (k : κ) (v : α) :
    (l : List (κ × α)) → alookup k l = some v → (k, v) ∈ l
  | [], h => absurd h (by simp [alookup])
  | (k1, v1) :: rest, h => by
    by_cases h1 : k1 = k
    · rw [alookup, if_pos h1] at h
      have hv : v1 = v := (Option.some.injEq v1 v).mp h
      rw [← h1, ← hv]
      exact List.mem_cons_self _ _
    · rw [alookup, if_neg h1] at h
      exact List.mem_cons_of_mem _ (alookup_some_mem k v rest h)

theorem map_fst_aset_of_isSome {κ α : Type} [DecidableEq κ] (k : κ) (v : α) :
    (l : List (κ × α)) → (alookup k l).isSome →
    (aset k v l).map Prod.fst = l.map Prod.fst
  | [], h => absurd h (by simp [alookup])
  | (k1, v1) :: rest, h => by
    by_cases h1 : k1 = k
    · simp [aset, h1]
    · rw [alookup, if_neg h1] at h
      simp [aset, h1, map_fst_aset_of_isSome k v rest h]

theorem aset_map_commute {κ α β : Type} [DecidableEq κ] (k : κ) (v : α)
    (f : α → β) : (l : List (κ × α)) →
    aset k (f v) (l.map (fun p => (p.1, f p.2))) =
      (aset k v l).map (fun p => (p.1, f p.2))
  | [] => by simp [aset]
  | (k1, v1) :: rest => by
    by_cases h1 : k1 = k
    · simp [aset, h1]
    · simp [aset, h1, aset_map_commute k v f rest]

theorem alookup_map_value {κ α β : Type} [DecidableEq κ] (k : κ)
    (f : α → β) : (l : List (κ × α)) →
    alookup k (l.map (fun p => (p.1, f p.2))) = (alookup k l).map f
  | [] => by simp [alookup]
  | (k1, v1) :: rest => by
    by_cases h1 : k1 = k
    · simp [alookup, h1]
    · simp [alookup, h1, alookup_map_value k f rest]

theorem mem_aset {κ α : Type} [DecidableEq κ] (k : κ) (v : α) (q : κ × α) :
    (l : List (κ × α)) → q ∈ aset k v l → q = (k, v) ∨ q ∈ l
  | [], h => by simpa [aset] using h
  | (k1, v1) :: rest, h => by
    by_cases h1 : k1 = k
    · rw [aset, if_pos h1] at h
      rcases List.mem_cons.mp h with h2 | h2
      · exact Or.inl h2
      · exact Or.inr (List.mem_cons_of_mem _ h2)
    · rw [aset, if_neg h1] at h
      rcases List.mem_cons.mp h with h2 | h2
      · exact Or.inr (h2 ▸ List.mem_cons_self _ _)
      · rcases mem_aset k v q rest h2 with h3 | h3
        · exact Or.inl h3
        · exact Or.inr (List.mem_cons_of_mem _ h3)

/-- The consistency invariant of `_set_class_properties`: the interface
mapping is exactly the key structure of the registered-plugins dictionary,
and each plugin type's interface keys are duplicate-free. -/
def stInv (st : RegState) : Prop :=
  st.mapping = st.registered.map (fun p => (p.1, p.2.map Prod.fst)) ∧
  ∀ p ∈ st.registered, (p.2.map Prod.fst).Nodup

theorem mergeInterfaces_fst :
    (entries : TypeDict) → (cur : TypeDict) → (curMap : List String) →
    curMap = cur.map Prod.fst →
    (mergeInterfaces cur curMap entries).2 =
      (mergeInterfaces cur curMap entries).1.map Prod.fst
  | [], cur, curMap, h => h
  | (iface, idict) :: rest, cur, curMap, h => by
    cases hal : alookup iface cur with
    | none =>
      rw [mergeInterfaces, hal]
      exact mergeInterfaces_fst rest (cur ++ [(iface, idict)])
        (curMap ++ [iface]) (by simp [h])
    | some ex =>
      rw [mergeInterfaces, hal]
      exact mergeInterfaces_fst rest (aset iface (mergeObj ex idict) cur)
        curMap (by
          rw [map_fst_aset_of_isSome iface _ cur (by simp [hal])]
          exact h)

theorem mergeInterfaces_nodup :
    (entries : TypeDict) → (cur : TypeDict) → (curMap : List String) →
    (cur.map Prod.fst).Nodup →
    ((mergeInterfaces cur curMap entries).1.map Prod.fst).Nodup
  | [], cur, curMap, h => h
  | (iface, idict) :: rest, cur, curMap, h => by
    cases hal : alookup iface cur with
    | none =>
      rw [mergeInterfaces, hal]
      refine mergeInterfaces_nodup rest _ _ ?_
      have hnotmem : iface ∉ cur.map Prod.fst := by
        rw [← alookup_isSome_iff_mem iface cur, hal]
        simp
      simp [List.nodup_middle, h, hnotmem]
    | some ex =>
      rw [mergeInterfaces, hal]
      refine mergeInterfaces_nodup rest _ _ ?_
      rw [map_fst_aset_of_isSome iface _ cur (by simp [hal])]
      exact h

theorem mergeTypes_inv : (r : RegRecord) → (st : RegState) → stInv st →
    stInv (mergeTypes st r)
  | [], st, h => h
  | (ptype, tdict) :: rest, st, h => by
    rw [mergeTypes]
    have hinv1 : stInv (if (alookup ptype st.registered).isSome then st
        else { registered := st.registered ++ [(ptype, [])],
               mapping := st.mapping ++ [(ptype, [])] }) := by
      by_cases hal : (alookup ptype st.registered).isSome
      · simpa [hal] using h
      · simp only [hal, if_false, Bool.false_eq_true]
        constructor
        · simp [h.1]
        · intro p hp
          rcases List.mem_append.mp hp with h2 | h2
          · exact h.2 p h2
          · simp only [List.mem_singleton] at h2
            rw [h2]
            simp
    set st1 := if (alookup ptype st.registered).isSome then st
      else { registered := st.registered ++ [(ptype, [])],
             mapping := st.mapping ++ [(ptype, [])] } with hst1
    have hcm : (alookup ptype st1.mapping).getD [] =
        ((alookup ptype st1.registered).getD []).map Prod.fst := by
      rw [hinv1.1, alookup_map_value]
      cases alookup ptype st1.registered <;> simp
    have hcurnodup : (((alookup ptype st1.registered).getD []).map
        Prod.fst).Nodup := by
      cases hal : alookup ptype st1.registered with
      | none => simp
      | some td =>
        simpa using hinv1.2 (ptype, td) (alookup_some_mem ptype td _ hal)
    refine mergeTypes_inv rest _ ⟨?_, ?_⟩
    · simp only
      have hfst := mergeInterfaces_fst tdict
        ((alookup ptype st1.registered).getD [])
        ((alookup ptype st1.mapping).getD []) hcm
      rw [hfst, hinv1.1]
      exact aset_map_commute ptype _ (fun td => td.map Prod.fst)
        st1.registered
    · intro p hp
      simp only at hp
      rcases mem_aset _ _ _ _ hp with h2 | h2
      · rw [h2]
        simp only
        exact mergeInterfaces_nodup tdict _ _ hcurnodup
      · exact hinv1.2 p h2

theorem loadRegistries_inv (fs : String → Option RegRecord) :
    (files : List String) → (st : RegState) → (pr : List GErr) →
    (st1 : RegState) → (pr1 : List GErr) → stInv st →
    loadRegistries fs st pr files = Except.ok (st1, pr1) → stInv st1
  | [], st, pr, st1, pr1, h, hok => by
    rw [loadRegistries] at hok
    have h2 := (Except.ok.injEq _ _).mp hok
    rw [← ((Prod.mk.injEq _ _ _ _).mp h2).1]
    exact h
  | f :: rest, st, pr, st1, pr1, h, hok => by
    rw [loadRegistries] at hok
    cases hf : fs f with
    | none => rw [hf] at hok; exact absurd hok (by simp)
    | some r =>
      rw [hf] at hok
      exact loadRegistries_inv fs rest (mergeTypes st r) _ st1 pr1
        (mergeTypes_inv r st h) hok

/-- C10: after `_set_class_properties` merges any sequence of package
records, the interface mapping is consistent with the merged registry: for
every plugin type it is exactly the list of interface keys of
`registered_plugins` for that type, without duplicates, and an interface
is in the mapping precisely when it is a key of the merged dictionary. -/
theorem claim_C10_interface_mapping_consistent
    (files : List String) (fs : String → Option RegRecord)
    (st : RegState) (pr : List GErr)
    (hok : setClassProperties files fs = Except.ok (st, pr)) :
    ∀ ptype, alookup ptype st.mapping =
        (alookup ptype st.registered).map (fun td => td.map Prod.fst) ∧
      (∀ l, alookup ptype st.mapping = some l → l.Nodup) ∧
      (∀ td l, alookup ptype st.registered = some td →
        alookup ptype st.mapping = some l →
        ∀ iface, iface ∈ l ↔ (alookup iface td).isSome) := by
  have hinv : stInv st := loadRegistries_inv fs files
    { registered := [], mapping := [] } [] st pr ⟨rfl, by simp⟩ hok
  intro ptype
  have hmap : alookup ptype st.mapping =
      (alookup ptype st.registered).map (fun td => td.map Prod.fst) := by
    rw [hinv.1, alookup_map_value]
  refine ⟨hmap, ?_, ?_⟩
  · intro l hl
    rw [hmap] at hl
    cases hal : alookup ptype st.registered with
    | none => rw [hal] at hl; exact absurd hl (by simp)
    | some td =>
      rw [hal] at hl
      simp only [Option.map_some', Option.some.injEq] at hl
      rw [← hl]
      exact hinv.2 (ptype, td) (alookup_some_mem ptype td _ hal)
  · intro td l htd hl iface
    rw [hmap, htd] at hl
    simp only [Option.map_some', Option.some.injEq] at hl
    rw [← hl]
    exact (alookup_isSome_iff_mem iface td).symm

/-- Witness for C10 at a concrete pair of package records sharing a plugin
type. -/
theorem claim_C10_witness :
    alookup "yaml_based"
        ((⟨[("yaml_based", [("products", PObj.cons "a" (PVal.num 1) PObj.nil),
              ("sectors", PObj.nil)]),
            ("module_based", [("readers", PObj.nil)])],
           [("yaml_based", ["products", "sectors"]),
            ("module_based", ["readers"])]⟩ : RegState)).mapping =
        (alookup "yaml_based"
          (⟨[("yaml_based",
              [("products", PObj.cons "a" (PVal.num 1) PObj.nil),
               ("sectors", PObj.nil)]),
             ("module_based", [("readers", PObj.nil)])],
            [("yaml_based", ["products", "sectors"]),
             ("module_based", ["readers"])]⟩ : RegState).registered).map
          (fun td => td.map Prod.fst) ∧
      (∀ l, alookup "yaml_based"
          (⟨[("yaml_based",
              [("products", PObj.cons "a" (PVal.num 1) PObj.nil),
               ("sectors", PObj.nil)]),
             ("module_based", [("readers", PObj.nil)])],
            [("yaml_based", ["products", "sectors"]),
             ("module_based", ["readers"])]⟩ : RegState).mapping = some l →
        l.Nodup) ∧
      (∀ td l, alookup "yaml_based"
          (⟨[("yaml_based",
              [("products", PObj.cons "a" (PVal.num 1) PObj.nil),
               ("sectors", PObj.nil)]),
             ("module_based", [("readers", PObj.nil)])],
            [("yaml_based", ["products", "sectors"]),
             ("module_based", ["readers"])]⟩ : RegState).registered =
          some td →
        alookup "yaml_based"
          (⟨[("yaml_based",
              [("products", PObj.cons "a" (PVal.num 1) PObj.nil),
               ("sectors", PObj.nil)]),
             ("module_based", [("readers", PObj.nil)])],
            [("yaml_based", ["products", "sectors"]),
             ("module_based", ["readers"])]⟩ : RegState).mapping = some l →
        ∀ iface, iface ∈ l ↔ (alookup iface td).isSome) :=
  claim_C10_interface_mapping_consistent
    ["f1", "f2"]
    (fun p => if p = "f1"
      then some [("yaml_based",
        [("products", PObj.cons "a" (PVal.num 1) PObj.nil)]),
        ("module_based", [("readers", PObj.nil)])]
      else if p = "f2"
      then some [("yaml_based", [("sectors", PObj.nil)])]
      else none)
    _ _ (by rfl) "yaml_based"


/-! Lemmas for the cross-package merge semantics (C1). -/

theorem olookup_mergeObj_both (k : String) (d s : PObj) (v sv : PVal)
    (hd : olookup k d = some v) (hs : olookup k s = some sv) :
    olookup k (mergeObj d s) = some (mergeVal v sv) := by
  have h := olookup_mergeObj k d s
  rw [hd, hs] at h
  exact h

theorem olookup_mergeObj_left (k : String) (d s : PObj) (v : PVal)
    (hd : olookup k d = some v) (hs : olookup k s = none) :
    olookup k (mergeObj d s) = some v := by
  have h := olookup_mergeObj k d s
  rw [hd, hs] at h
  exact h

theorem olookup_mergeObj_right (k : String) (d s : PObj)
    (hd : olookup k d = none) :
    olookup k (mergeObj d s) = olookup k s := by
  have h := olookup_mergeObj k d s
  rw [hd] at h
  exact h

theorem olookup_mergeObj_isSome (k : String) (d s : PObj) :
    (olookup k (mergeObj d s)).isSome ↔
      (olookup k d).isSome ∨ (olookup k s).isSome := by
  rw [olookup_mergeObj]
  cases h1 : olookup k d <;> cases h2 : olookup k s <;> simp

/-- A dictionary binds `nm` under interface `iface` of a type dictionary. -/
def tdHasName (td : TypeDict) (iface nm : String) : Prop :=
  ∃ d, alookup iface td = some d ∧ (olookup nm d).isSome

/-- The merged registry binds plugin `nm` of interface `iface` under plugin
type `pt`: `registered_plugins[pt][iface][nm]` exists. -/
def stHasName (st : RegState) (pt iface nm : String) : Prop :=
  ∃ td, alookup pt st.registered = some td ∧ tdHasName td iface nm

/-- A plugin dictionary binds `nm` to an entry whose field `fld` holds the
string leaf `a`. -/
def hasLeaf (d : PObj) (nm fld a : String) : Prop :=
  ∃ e, olookup nm d = some (PVal.node e) ∧
    olookup fld e = some (PVal.atom a)

/-- Leaf-value form of `tdHasName`. -/
def tdHasLeaf (td : TypeDict) (iface nm fld a : String) : Prop :=
  ∃ d, alookup iface td = some d ∧ hasLeaf d nm fld a

/-- Leaf-value form of `stHasName`:
`registered_plugins[pt][iface][nm][fld]` is the string `a`. -/
def stHasLeaf (st : RegState) (pt iface nm fld a : String) : Prop :=
  ∃ td, alookup pt st.registered = some td ∧ tdHasLeaf td iface nm fld a

/-- Destination leaves survive `merge_nested_dicts`: a field bound to a
string atom inside an entry of the destination dictionary keeps its value
whatever the source dictionary binds. -/
theorem hasLeaf_mergeObj (d s : PObj) (nm fld a : String)
    (h : hasLeaf d nm fld a) : hasLeaf (mergeObj d s) nm fld a := by
  obtain ⟨e, he, hf⟩ := h
  cases h2 : olookup nm s with
  | none => exact ⟨e, olookup_mergeObj_left nm d s _ he h2, hf⟩
  | some sv =>
    have hb := olookup_mergeObj_both nm d s _ _ he h2
    cases sv with
    | atom b => exact ⟨e, hb, hf⟩
    | num b => exact ⟨e, hb, hf⟩
    | node s2 =>
      refine ⟨mergeObj e s2, hb, ?_⟩
      cases h3 : olookup fld s2 with
      | none => exact olookup_mergeObj_left fld e s2 _ hf h3
      | some w =>
        have := olookup_mergeObj_both fld e s2 _ _ hf h3
        rw [this]
        cases w <;> rfl

theorem tdHasName_append_single (cur : TypeDict) (if2 : String)
    (idict : PObj) (iface nm : String) :
    tdHasName (cur ++ [(if2, idict)]) iface nm ↔
      tdHasName cur iface nm ∨
        (alookup iface cur = none ∧ iface = if2 ∧
          (olookup nm idict).isSome) := by
  unfold tdHasName
  rw [alookup_append iface cur [(if2, idict)]]
  cases h : alookup iface cur with
  | some d => simp
  | none =>
    by_cases h2 : if2 = iface
    · simp [alookup, h2]
    · constructor
      · rintro ⟨d, hd, -⟩
        simp only [alookup, if_neg h2] at hd
        exact absurd hd (by simp)
      · rintro (⟨d, hd, -⟩ | ⟨-, h3, -⟩)
        · exact absurd hd (by simp)
        · exact absurd h3.symm h2

theorem tdHasName_aset_merge (cur : TypeDict) (if2 : String)
    (ex idict : PObj) (iface nm : String)
    (hal : alookup if2 cur = some ex) :
    tdHasName (aset if2 (mergeObj ex idict) cur) iface nm ↔
      tdHasName cur iface nm ∨
        (iface = if2 ∧ (olookup nm idict).isSome) := by
  unfold tdHasName
  by_cases hif : iface = if2
  · have h1 : alookup iface (aset if2 (mergeObj ex idict) cur) =
        some (mergeObj ex idict) := by
      rw [hif]; exact alookup_aset_self _ _ _
    have h2 : alookup iface cur = some ex := by rw [hif]; exact hal
    rw [h1, h2]
    simp [olookup_mergeObj_isSome, hif]
  · rw [alookup_aset_ne iface if2 _ (fun h => hif h.symm) cur]
    simp [hif]

theorem mergeInterfaces_hasName :
    (entries : TypeDict) → (cur : TypeDict) → (curMap : List String) →
    ∀ iface nm,
    tdHasName (mergeInterfaces cur curMap entries).1 iface nm ↔
      (tdHasName cur iface nm ∨
        ∃ d, (iface, d) ∈ entries ∧ (olookup nm d).isSome)
  | [], cur, curMap, iface, nm => by simp [mergeInterfaces]
  | (if2, idict) :: rest, cur, curMap, iface, nm => by
    cases hal : alookup if2 cur with
    | none =>
      have heq : mergeInterfaces cur curMap ((if2, idict) :: rest) =
          mergeInterfaces (cur ++ [(if2, idict)]) (curMap ++ [if2]) rest := by
        rw [mergeInterfaces, hal]
      rw [heq, mergeInterfaces_hasName rest _ _ iface nm,
        tdHasName_append_single]
      constructor
      · rintro ((h | ⟨-, h2, h3⟩) | h)
        · exact Or.inl h
        · exact Or.inr ⟨idict, by simp [h2], h3⟩
        · rcases h with ⟨d, hd, hs⟩
          exact Or.inr ⟨d, List.mem_cons_of_mem _ hd, hs⟩
      · rintro (h | ⟨d, hd, hs⟩)
        · exact Or.inl (Or.inl h)
        · rcases List.mem_cons.mp hd with h2 | h2
          · have h3 : iface = if2 ∧ d = idict := by
              have := Prod.mk.injEq iface d if2 idict ▸ h2
              exact ⟨this.1, this.2⟩
            exact Or.inl (Or.inr ⟨h3.1 ▸ hal, h3.1, h3.2 ▸ hs⟩)
          · exact Or.inr ⟨d, h2, hs⟩
    | some ex =>
      have heq : mergeInterfaces cur curMap ((if2, idict) :: rest) =
          mergeInterfaces (aset if2 (mergeObj ex idict) cur) curMap rest := by
        rw [mergeInterfaces, hal]
      rw [heq, mergeInterfaces_hasName rest _ _ iface nm,
        tdHasName_aset_merge cur if2 ex idict iface nm hal]
      constructor
      · rintro ((h | ⟨h2, h3⟩) | h)
        · exact Or.inl h
        · exact Or.inr ⟨idict, by simp [h2], h3⟩
        · rcases h with ⟨d, hd, hs⟩
          exact Or.inr ⟨d, List.mem_cons_of_mem _ hd, hs⟩
      · rintro (h | ⟨d, hd, hs⟩)
        · exact Or.inl (Or.inl h)
        · rcases List.mem_cons.mp hd with h2 | h2
          · have h3 : iface = if2 ∧ d = idict := by
              have := Prod.mk.injEq iface d if2 idict ▸ h2
              exact ⟨this.1, this.2⟩
            exact Or.inl (Or.inr ⟨h3.1, h3.2 ▸ hs⟩)
          · exact Or.inr ⟨d, h2, hs⟩


theorem recHas_cons (ptype : String) (tdict : TypeDict) (rest : RegRecord)
    (pt iface nm : String) :
    recHas ((ptype, tdict) :: rest) pt iface nm ↔
      (pt = ptype ∧ ∃ d, (iface, d) ∈ tdict ∧ (olookup nm d).isSome) ∨
        recHas rest pt iface nm := by
  unfold recHas
  constructor
  · rintro ⟨td, htd, hrest⟩
    rcases List.mem_cons.mp htd with h | h
    · rw [Prod.mk.injEq] at h
      exact Or.inl ⟨h.1, h.2 ▸ hrest⟩
    · exact Or.inr ⟨td, h, hrest⟩
  · rintro (⟨hpt, hd⟩ | ⟨td, htd, hrest⟩)
    · exact ⟨tdict, by rw [hpt]; exact List.mem_cons_self _ _, hd⟩
    · exact ⟨td, List.mem_cons_of_mem _ htd, hrest⟩

theorem mergeTypes_hasName : (r : RegRecord) → (st : RegState) →
    ∀ pt iface nm, stHasName (mergeTypes st r) pt iface nm ↔
      stHasName st pt iface nm ∨ recHas r pt iface nm
  | [], st, pt, iface, nm => by
    simp [mergeTypes, recHas]
  | (ptype, tdict) :: rest, st, pt, iface, nm => by
    rw [mergeTypes]
    set st1 := if (alookup ptype st.registered).isSome then st
      else { registered := st.registered ++ [(ptype, [])],
             mapping := st.mapping ++ [(ptype, [])] } with hst1
    rw [mergeTypes_hasName rest _ pt iface nm, recHas_cons]
    have halst1 : (alookup ptype st1.registered).isSome := by
      by_cases horig : (alookup ptype st.registered).isSome
      · simp only [hst1, horig, if_true]
      · simp only [hst1, horig, if_false, Bool.false_eq_true]
        rw [alookup_append]
        cases h2 : alookup ptype st.registered with
        | some v => simp
        | none => simp [alookup]
    have hother : ∀ q, q ≠ ptype →
        alookup q st1.registered = alookup q st.registered := by
      intro q hq
      by_cases horig : (alookup ptype st.registered).isSome
      · simp [hst1, horig]
      · simp only [hst1, horig, if_false, Bool.false_eq_true]
        rw [alookup_append]
        cases h2 : alookup q st.registered with
        | some v => simp
        | none => simp [alookup, Ne.symm hq]
    have hmain : stHasName
        { registered := aset ptype
            (mergeInterfaces ((alookup ptype st1.registered).getD [])
              ((alookup ptype st1.mapping).getD []) tdict).1 st1.registered,
          mapping := aset ptype
            (mergeInterfaces ((alookup ptype st1.registered).getD [])
              ((alookup ptype st1.mapping).getD []) tdict).2 st1.mapping }
        pt iface nm ↔
        stHasName st pt iface nm ∨
          (pt = ptype ∧ ∃ d, (iface, d) ∈ tdict ∧ (olookup nm d).isSome) := by
      unfold stHasName
      by_cases hpt : pt = ptype
      · subst hpt
        simp only [alookup_aset_self]
        rw [show (∃ td, some (mergeInterfaces
            ((alookup pt st1.registered).getD [])
            ((alookup pt st1.mapping).getD []) tdict).1 = some td ∧
            tdHasName td iface nm) ↔
            tdHasName (mergeInterfaces
              ((alookup pt st1.registered).getD [])
              ((alookup pt st1.mapping).getD []) tdict).1 iface nm
          from by simp]
        rw [mergeInterfaces_hasName tdict _ _ iface nm]
        have hcur : tdHasName ((alookup pt st1.registered).getD []) iface nm ↔
            ∃ td, alookup pt st.registered = some td ∧
              tdHasName td iface nm := by
          by_cases horig : (alookup pt st.registered).isSome
          · obtain ⟨td, htd⟩ := Option.isSome_iff_exists.mp horig
            have : alookup pt st1.registered = some td := by
              simp [hst1, horig, htd]
            rw [this, htd]
            simp
          · have hnone : alookup pt st.registered = none :=
              Option.not_isSome_iff_eq_none.mp horig
            have : alookup pt st1.registered = some [] := by
              simp only [hst1, horig, if_false, Bool.false_eq_true]
              rw [alookup_append, hnone]
              simp [alookup]
            rw [this, hnone]
            simp [tdHasName, alookup]
        rw [hcur]
        simp
      · rw [alookup_aset_ne pt ptype _ (fun h => hpt h.symm),
          hother pt hpt]
        simp [hpt]
    rw [hmain]
    exact or_assoc

theorem loadRegistries_hasName (fs : String → Option RegRecord) :
    (files : List String) → (st : RegState) → (pr : List GErr) →
    (st1 : RegState) → (pr1 : List GErr) →
    loadRegistries fs st pr files = Except.ok (st1, pr1) →
    ∀ pt iface nm, stHasName st1 pt iface nm ↔
      stHasName st pt iface nm ∨
        ∃ p ∈ files, ∃ r, fs p = some r ∧ recHas r pt iface nm
  | [], st, pr, st1, pr1, hok, pt, iface, nm => by
    rw [loadRegistries] at hok
    have h2 := (Except.ok.injEq _ _).mp hok
    rw [← ((Prod.mk.injEq _ _ _ _).mp h2).1]
    simp
  | f :: rest, st, pr, st1, pr1, hok, pt, iface, nm => by
    rw [loadRegistries] at hok
    cases hf : fs f with
    | none => rw [hf] at hok; exact absurd hok (by simp)
    | some r =>
      rw [hf] at hok
      rw [loadRegistries_hasName fs rest (mergeTypes st r) _ st1 pr1 hok
        pt iface nm]
      rw [mergeTypes_hasName r st pt iface nm]
      have hfiff : (∃ r2, fs f = some r2 ∧ recHas r2 pt iface nm) ↔
          recHas r pt iface nm := by
        constructor
        · rintro ⟨r2, hr2, h⟩
          rw [hf] at hr2
          exact ((Option.some.injEq _ _).mp hr2) ▸ h
        · intro h
          exact ⟨r, hf, h⟩
      constructor
      · rintro ((h | h) | h)
        · exact Or.inl h
        · exact Or.inr ⟨f, List.mem_cons_self f rest, hfiff.mpr h⟩
        · rcases h with ⟨p, hp, hr⟩
          exact Or.inr ⟨p, List.mem_cons_of_mem f hp, hr⟩
      · rintro (h | ⟨p, hp, hr⟩)
        · exact Or.inl (Or.inl h)
        · rcases List.mem_cons.mp hp with h2 | h2
          · exact Or.inl (Or.inr (hfiff.mp (h2 ▸ hr)))
          · exact Or.inr ⟨p, h2, hr⟩

theorem tdHasLeaf_mergeInterfaces :
    (entries : TypeDict) → (cur : TypeDict) → (curMap : List String) →
    ∀ iface nm fld a, tdHasLeaf cur iface nm fld a →
    tdHasLeaf (mergeInterfaces cur curMap entries).1 iface nm fld a
  | [], cur, curMap, iface, nm, fld, a, h => h
  | (if2, idict) :: rest, cur, curMap, iface, nm, fld, a, h => by
    obtain ⟨d, hd, hleaf⟩ := h
    cases hal : alookup if2 cur with
    | none =>
      have heq : mergeInterfaces cur curMap ((if2, idict) :: rest) =
          mergeInterfaces (cur ++ [(if2, idict)]) (curMap ++ [if2]) rest := by
        rw [mergeInterfaces, hal]
      rw [heq]
      refine tdHasLeaf_mergeInterfaces rest _ _ iface nm fld a ⟨d, ?_, hleaf⟩
      rw [alookup_append, hd]
    | some ex =>
      have heq : mergeInterfaces cur curMap ((if2, idict) :: rest) =
          mergeInterfaces (aset if2 (mergeObj ex idict) cur) curMap rest := by
        rw [mergeInterfaces, hal]
      rw [heq]
      by_cases hif : iface = if2
      · have hex : ex = d := by
          rw [hif] at hd
          rw [hd] at hal
          exact ((Option.some.injEq _ _).mp hal).symm
      
        refine tdHasLeaf_mergeInterfaces rest _ _ iface nm fld a
          ⟨mergeObj ex idict, ?_, hex ▸ hasLeaf_mergeObj d idict nm fld a hleaf⟩
        rw [hif]
        exact alookup_aset_self _ _ _
      · refine tdHasLeaf_mergeInterfaces rest _ _ iface nm fld a
          ⟨d, ?_, hleaf⟩
        rw [alookup_aset_ne iface if2 _ (fun h2 => hif h2.symm)]
        exact hd

theorem stHasLeaf_mergeTypes : (r : RegRecord) → (st : RegState) →
    ∀ pt iface nm fld a, stHasLeaf st pt iface nm fld a →
    stHasLeaf (mergeTypes st r) pt iface nm fld a
  | [], st, pt, iface, nm, fld, a, h => h
  | (ptype, tdict) :: rest, st, pt, iface, nm, fld, a, h => by
    obtain ⟨td, htd, hleaf⟩ := h
    rw [mergeTypes]
    set st1 := if (alookup ptype st.registered).isSome then st
      else { registered := st.registered ++ [(ptype, [])],
             mapping := st.mapping ++ [(ptype, [])] } with hst1
    have halst1 : alookup pt st1.registered = some td := by
      by_cases horig : (alookup ptype st.registered).isSome
      · simpa [hst1, horig] using htd
      · simp only [hst1, horig, if_false, Bool.false_eq_true]
        rw [alookup_append, htd]
    refine stHasLeaf_mergeTypes rest _ pt iface nm fld a ?_
    by_cases hpt : pt = ptype
    · subst hpt
      refine ⟨(mergeInterfaces ((alookup pt st1.registered).getD [])
        ((alookup pt st1.mapping).getD []) tdict).1,
        alookup_aset_self _ _ _, ?_⟩
      rw [halst1]
      exact tdHasLeaf_mergeInterfaces tdict td _ iface nm fld a hleaf
    · exact ⟨td, by
        rw [alookup_aset_ne pt ptype _ (fun h2 => hpt h2.symm)]
        exact halst1, hleaf⟩

theorem stHasLeaf_loadRegistries (fs : String → Option RegRecord) :
    (files : List String) → (st : RegState) → (pr : List GErr) →
    (st1 : RegState) → (pr1 : List GErr) →
    ∀ pt iface nm fld a, stHasLeaf st pt iface nm fld a →
    loadRegistries fs st pr files = Except.ok (st1, pr1) →
    stHasLeaf st1 pt iface nm fld a
  | [], st, pr, st1, pr1, pt, iface, nm, fld, a, h, hok => by
    rw [loadRegistries] at hok
    have h2 := (Except.ok.injEq _ _).mp hok
    rw [← ((Prod.mk.injEq _ _ _ _).mp h2).1]
    exact h
  | f :: rest, st, pr, st1, pr1, pt, iface, nm, fld, a, h, hok => by
    rw [loadRegistries] at hok
    cases hf : fs f with
    | none => rw [hf] at hok; exact absurd hok (by simp)
    | some r =>
      rw [hf] at hok
      exact stHasLeaf_loadRegistries fs rest (mergeTypes st r) _ st1 pr1
        pt iface nm fld a (stHasLeaf_mergeTypes r st pt iface nm fld a h) hok

/-- C1 as stated is false at this input: two packages both register
yaml_based/products/foo with a colliding leaf key "package"; the merged
registry keeps the first-merged package's value "pkg1", not the
later-merged "pkg2" that last-write-wins would require. -/
theorem claim_C1_counterexample :
    ∃ st pr,
      setClassProperties ["f1", "f2"]
        (fun p => if p = "f1" then
          some [("yaml_based", [("products",
            PObj.cons "foo" (PVal.node
              (PObj.cons "package" (PVal.atom "pkg1") PObj.nil))
              PObj.nil)])]
        else if p = "f2" then
          some [("yaml_based", [("products",
            PObj.cons "foo" (PVal.node
              (PObj.cons "package" (PVal.atom "pkg2") PObj.nil))
              PObj.nil)])]
        else none) = Except.ok (st, pr) ∧
      regFieldLookup st "yaml_based" "products" "foo" "package" =
        some (PVal.atom "pkg1") ∧
      regFieldLookup st "yaml_based" "products" "foo" "package" ≠
        some (PVal.atom "pkg2") := by
  refine ⟨_, _, rfl, rfl, ?_⟩
  intro h
  have h2 : (some (PVal.atom "pkg1") : Option PVal) =
      some (PVal.atom "pkg2") := h
  simp at h2

/-- C1 amended: after merging, the registry binds a (plugin-type,
interface, name) triple exactly when some package record binds it (the
merged registry is exactly the union; later packages extend and never
delete), and at colliding leaf keys the earliest-merged package's value is
retained: once a leaf field of an entry holds a string value, merging any
further package records leaves it unchanged (first-write-wins, not
last-write-wins). -/
theorem claim_C1_amended_union_first_wins :
    (∀ files fs st pr, setClassProperties files fs = Except.ok (st, pr) →
      ∀ pt iface nm, stHasName st pt iface nm ↔
        ∃ p ∈ files, ∃ r, fs p = some r ∧ recHas r pt iface nm)
    ∧ (∀ fs files st pr st1 pr1 pt iface nm fld a,
        stHasLeaf st pt iface nm fld a →
        loadRegistries fs st pr files = Except.ok (st1, pr1) →
        stHasLeaf st1 pt iface nm fld a) := by
  constructor
  · intro files fs st pr hok pt iface nm
    rw [loadRegistries_hasName fs files { registered := [], mapping := [] }
      [] st pr hok pt iface nm]
    simp [stHasName, alookup]
  · intro fs files st pr st1 pr1 pt iface nm fld a h hok
    exact stHasLeaf_loadRegistries fs files st pr st1 pr1 pt iface nm fld a
      h hok

/-- Witness for C1 amended at a concrete pair of registry files. -/
theorem claim_C1_amended_witness :
    (∃ st pr,
      setClassProperties ["f1"]
        (fun p => if p = "f1" then
          some [("yaml_based", [("products",
            PObj.cons "foo" (PVal.node
              (PObj.cons "package" (PVal.atom "pkg1") PObj.nil))
              PObj.nil)])]
        else none) = Except.ok (st, pr) ∧
      (stHasName st "yaml_based" "products" "foo" ↔
        ∃ p ∈ ["f1"], ∃ r,
          (fun p => if p = "f1" then
            some [("yaml_based", [("products",
              PObj.cons "foo" (PVal.node
                (PObj.cons "package" (PVal.atom "pkg1") PObj.nil))
                PObj.nil)])]
          else none : String → Option RegRecord) p = some r ∧
          recHas r "yaml_based" "products" "foo"))
    ∧ (∃ st1 pr1,
      loadRegistries
        (fun p => if p = "f2" then
          some [("yaml_based", [("products",
            PObj.cons "foo" (PVal.node
              (PObj.cons "package" (PVal.atom "pkg2") PObj.nil))
              PObj.nil)])]
        else none)
        { registered := [("yaml_based", [("products",
            PObj.cons "foo" (PVal.node
              (PObj.cons "package" (PVal.atom "pkg1") PObj.nil))
              PObj.nil)])],
          mapping := [("yaml_based", ["products"])] } [] ["f2"] =
        Except.ok (st1, pr1) ∧
      stHasLeaf st1 "yaml_based" "products" "foo" "package" "pkg1") := by
  constructor
  · refine ⟨_, _, rfl, ?_⟩
    exact claim_C1_amended_union_first_wins.1 ["f1"] _ _ _ (by rfl)
      "yaml_based" "products" "foo"
  · refine ⟨_, _, rfl, ?_⟩
    exact claim_C1_amended_union_first_wins.2
      (fun p => if p = "f2" then
        some [("yaml_based", [("products",
          PObj.cons "foo" (PVal.node
            (PObj.cons "package" (PVal.atom "pkg2") PObj.nil))
            PObj.nil)])]
      else none) ["f2"]
      { registered := [("yaml_based", [("products",
          PObj.cons "foo" (PVal.node
            (PObj.cons "package" (PVal.atom "pkg1") PObj.nil))
            PObj.nil)])],
        mapping := [("yaml_based", ["products"])] } [] _ _
      "yaml_based" "products" "foo" "package" "pkg1"
      ⟨_, rfl, _, rfl, _, rfl, rfl⟩ (by rfl)

end GeoIPS
